import Mathlib

/-!
Shallow embedding of the Qwt plot layout engine (src/qwt_plot_layout.cpp).

Reals (qreal/double) are modelled by ℚ, machine ints by ℤ. Rectangles follow
Qt semantics: QRectF stores (x, y, w, h) with right = x + w, QRect stores
integer (x, y, w, h) with right = x + w - 1.
-/

namespace Qwt

/-- Model of QRectF: floating rectangle stored as x, y, width, height. -/
structure RectF where
  x : ℚ
  y : ℚ
  w : ℚ
  h : ℚ
deriving DecidableEq

namespace RectF

def left (r : RectF) : ℚ := r.x
def top (r : RectF) : ℚ := r.y
def right (r : RectF) : ℚ := r.x + r.w
def bottom (r : RectF) : ℚ := r.y + r.h
def width (r : RectF) : ℚ := r.w
def height (r : RectF) : ℚ := r.h

/-- QRectF::setLeft keeps the right edge fixed. -/
def setLeft (r : RectF) (pos : ℚ) : RectF := ⟨pos, r.y, r.x + r.w - pos, r.h⟩

/-- QRectF::setRight keeps the left edge fixed. -/
def setRight (r : RectF) (pos : ℚ) : RectF := ⟨r.x, r.y, pos - r.x, r.h⟩

/-- QRectF::setTop keeps the bottom edge fixed. -/
def setTop (r : RectF) (pos : ℚ) : RectF := ⟨r.x, pos, r.w, r.y + r.h - pos⟩

/-- QRectF::setBottom keeps the top edge fixed. -/
def setBottom (r : RectF) (pos : ℚ) : RectF := ⟨r.x, r.y, r.w, pos - r.y⟩

/-- QRectF::setX is an alias of setLeft. -/
def setX (r : RectF) (pos : ℚ) : RectF := setLeft r pos

/-- QRectF::setY is an alias of setTop. -/
def setY (r : RectF) (pos : ℚ) : RectF := setTop r pos

def setWidth (r : RectF) (v : ℚ) : RectF := ⟨r.x, r.y, v, r.h⟩
def setHeight (r : RectF) (v : ℚ) : RectF := ⟨r.x, r.y, r.w, v⟩
def setRect (x y w h : ℚ) : RectF := ⟨x, y, w, h⟩

/-- QRectF::isValid: width and height are both positive. -/
def isValid (r : RectF) : Bool := decide (0 < r.w) && decide (0 < r.h)

/-- QRectF::isEmpty: width or height is non-positive. -/
def isEmpty (r : RectF) : Bool := decide (r.w ≤ 0) || decide (r.h ≤ 0)

/-- QRectF::normalized flips a negative width or height. -/
def normalized (r : RectF) : RectF :=
  let r1 : RectF := if r.w < 0 then ⟨r.x + r.w, r.y, -r.w, r.h⟩ else r
  if r1.h < 0 then ⟨r1.x, r1.y + r1.h, r1.w, -r1.h⟩ else r1

end RectF

/-- Default-constructed QRectF: all zero (invalid and empty). -/
def nullRectF : RectF := ⟨0, 0, 0, 0⟩

/-- Model of the integer QRect as x, y, width, height. -/
structure RectI where
  x : ℤ
  y : ℤ
  w : ℤ
  h : ℤ
deriving DecidableEq

/-- Default-constructed QRect (null). -/
def nullRectI : RectI := ⟨0, 0, 0, 0⟩

/-- Qt qRound: round half away from zero. -/
def qRound (q : ℚ) : ℤ := if 0 ≤ q then ⌊q + 1/2⌋ else ⌈q - 1/2⌉

/-- C++ double-to-int conversion: truncation toward zero. -/
def cppToInt (q : ℚ) : ℤ := if 0 ≤ q then ⌊q⌋ else ⌈q⌉

/-- QRectF::toRect: rounds corners, width and height derived from rounded edges. -/
def RectF.toRect (r : RectF) : RectI :=
  ⟨qRound r.x, qRound r.y,
    qRound (r.x + r.w) - qRound r.x, qRound (r.y + r.h) - qRound r.y⟩

/-- Conversion QRect → QRectF (implicit in C++ assignment). -/
def rectFOfRectI (r : RectI) : RectF := ⟨(r.x : ℚ), (r.y : ℚ), (r.w : ℚ), (r.h : ℚ)⟩

/-- Bounding rectangle of QRegion(a).subtracted(QRegion(b)): the smallest
integer rectangle containing the pixels of a not covered by b. -/
def regionSubBounding (a b : RectI) : RectI :=
  if a.w ≤ 0 ∨ a.h ≤ 0 then nullRectI
  else if b.w ≤ 0 ∨ b.h ≤ 0 then a
  else
    if b.x + b.w ≤ a.x ∨ a.x + a.w ≤ b.x ∨ b.y + b.h ≤ a.y ∨ a.y + a.h ≤ b.y then a
    else
      let coversV : Prop := b.y ≤ a.y ∧ a.y + a.h ≤ b.y + b.h
      let coversH : Prop := b.x ≤ a.x ∧ a.x + a.w ≤ b.x + b.w
      if coversV ∧ coversH then nullRectI
      else if coversV then
        let nl := if b.x ≤ a.x then b.x + b.w else a.x
        let nr := if a.x + a.w ≤ b.x + b.w then b.x else a.x + a.w
        ⟨nl, a.y, nr - nl, a.h⟩
      else if coversH then
        let nt := if b.y ≤ a.y then b.y + b.h else a.y
        let nb := if a.y + a.h ≤ b.y + b.h then b.y else a.y + a.h
        ⟨a.x, nt, a.w, nb - nt⟩
      else a

/-! Axis positions: QwtPlot::Axis with yLeft = 0, yRight = 1, xBottom = 2,
xTop = 3; NumAxisPositions = 4. -/

def yLeft : Fin 4 := 0
def yRight : Fin 4 := 1
def xBottom : Fin 4 := 2
def xTop : Fin 4 := 3

def qwtIsXAxis (axisPos : Fin 4) : Bool := axisPos == xTop || axisPos == xBottom

def qwtIsYAxis (axisPos : Fin 4) : Bool := axisPos == yLeft || axisPos == yRight

/-- QwtPlot::LegendPosition. -/
inductive LegendPosition where
  | LeftLegend
  | RightLegend
  | BottomLegend
  | TopLegend
deriving DecidableEq

/-- QwtPlotLayout::Options bitmask, one Bool per flag. -/
structure Options where
  ignoreFrames : Bool
  ignoreLegend : Bool
  ignoreTitle : Bool
  ignoreFooter : Bool
  ignoreScrollbars : Bool
deriving DecidableEq

/-! External collaborator measurements, captured per layout pass. These stand
for the widget queries made by QwtPlotLayoutData::init and, for the axis
title callback, by the solver itself through the stored widget pointer. -/

/-- Measurements supplied by a QwtAbstractLegend widget. -/
structure LegendInput where
  isEmptyW : Bool
  frameWidth : ℤ
  hScrollExtent : ℤ
  vScrollExtent : ℤ
  sizeHintW : ℤ
  sizeHintH : ℤ
  heightForWidth : ℤ → ℤ

/-- Measurements supplied by a QwtTextLabel (title or footer). -/
structure LabelInput where
  textIsEmpty : Bool
  textHeightForWidth : ℚ → ℚ
  frameWidth : ℤ

/-- Measurements supplied by one axis slot: the visibility flag from the plot
plus the QwtScaleWidget queries. -/
structure AxisInput where
  visible : Bool
  margin : ℤ
  hasTicksComponent : Bool
  maxTickLength : ℚ
  startBorderDist : ℤ
  endBorderDist : ℤ
  dimForLengthMax : ℤ
  titleIsEmpty : Bool
  titleHeightForWidthMax : ℤ
  titleHeightForWidth : ℤ → ℤ

/-- The whole plot as seen by QwtPlotLayoutData::init and activate. -/
structure PlotInput where
  legendW : Option LegendInput
  titleLabel : Option LabelInput
  footerLabel : Option LabelInput
  axes : Fin 4 → List AxisInput
  canvasContentsMargins : Fin 4 → ℤ

def defaultAxisInput : AxisInput :=
  ⟨false, 0, false, 0, 0, 0, 0, true, 0, fun _ => 0⟩

/-! Snapshot structures: QwtPlotLayoutData. -/

/-- QwtPlotLayoutData::LegendData. -/
structure LegendData where
  frameWidth : ℤ
  hScrollExtent : ℤ
  vScrollExtent : ℤ
  hintW : ℤ
  hintH : ℤ

namespace LegendData

/-- LegendData::init: capture legend hint, shrunk to the rect width, with the
height re-measured at that width and a horizontal scroll extent added when the
height overflows the rect. Absent legend: fields stay default-initialized,
modelled as zero. -/
def init (legend : Option LegendInput) (rect : RectF) : LegendData :=
  match legend with
  | some lg =>
      let w0 := min lg.sizeHintW ⌊rect.width⌋
      let h0 := lg.heightForWidth w0
      let h := if h0 ≤ 0 then lg.sizeHintH else h0
      let w := if (h : ℚ) > rect.height then w0 + lg.hScrollExtent else w0
      ⟨lg.frameWidth, lg.hScrollExtent, lg.vScrollExtent, w, h⟩
  | none => ⟨0, 0, 0, 0, 0⟩

end LegendData

/-- QwtPlotLayoutData::LabelData. -/
structure LabelData where
  textIsEmpty : Bool
  textHeightForWidth : ℚ → ℚ
  frameWidth : ℤ

namespace LabelData

/-- LabelData::init: a null label behaves like an empty QwtText with frame 0. -/
def init (label : Option LabelInput) : LabelData :=
  match label with
  | some lb => ⟨lb.textIsEmpty, lb.textHeightForWidth, lb.frameWidth⟩
  | none => ⟨true, fun _ => 0, 0⟩

end LabelData

/-- QwtPlotLayoutData::ScaleData. The titleIsEmpty flag and the
titleHeightForWidth callback stand for the queries the solver makes through
the stored scaleWidget pointer. -/
structure ScaleData where
  isVisible : Bool
  start : ℤ
  «end» : ℤ
  baseLineOffset : ℤ
  dimWithoutTitle : ℤ
  titleIsEmpty : Bool
  titleHeightForWidth : ℤ → ℤ

namespace ScaleData

/-- ScaleData::init for a visible axis (non-null widget). -/
def initSome (a : AxisInput) : ScaleData :=
  { isVisible := true
    start := a.startBorderDist
    «end» := a.endBorderDist
    baseLineOffset := a.margin
    dimWithoutTitle :=
      a.dimForLengthMax - (if ¬a.titleIsEmpty then a.titleHeightForWidthMax else 0)
    titleIsEmpty := a.titleIsEmpty
    titleHeightForWidth := a.titleHeightForWidth }

/-- ScaleData::init(NULL) for an invisible axis: everything zeroed. -/
def initNone : ScaleData :=
  { isVisible := false
    start := 0
    «end» := 0
    baseLineOffset := 0
    dimWithoutTitle := 0
    titleIsEmpty := true
    titleHeightForWidth := fun _ => 0 }

end ScaleData

/-- QwtPlotLayoutData: the per-pass measurement snapshot. labelData 0 is the
title, labelData 1 the footer (enum Label). -/
structure LayoutData where
  legendData : LegendData
  labelData : Fin 2 → LabelData
  scaleData : Fin 4 → List ScaleData
  contentsMargins : Fin 4 → ℤ
  tickOffset : Fin 4 → ℚ
  numVisibleScales : Fin 4 → ℕ

namespace LayoutData

def numAxes (ld : LayoutData) (axisPos : Fin 4) : ℕ := (ld.scaleData axisPos).length

def axisData (ld : LayoutData) (axisPos : Fin 4) (i : ℕ) : ScaleData :=
  (ld.scaleData axisPos).getD i ScaleData.initNone

/-- QwtPlotLayoutData::hasSymmetricYAxes. -/
def hasSymmetricYAxes (ld : LayoutData) : Bool :=
  ld.numVisibleScales yLeft == ld.numVisibleScales yRight

/-- Combined tick offset for a position: margin of the first visible axis plus
its max tick length when it draws ticks, 0 when no axis is visible. -/
def tickOffsetOf (axes : List AxisInput) : ℚ :=
  match axes.find? (fun a => a.visible) with
  | some a => (a.margin : ℚ) + (if a.hasTicksComponent then a.maxTickLength else 0)
  | none => 0

/-- QwtPlotLayoutData::init: extract all layout relevant data from the plot. -/
def init (plot : PlotInput) (rect : RectF) : LayoutData :=
  { legendData := LegendData.init plot.legendW rect
    labelData := fun i =>
      if i = 0 then LabelData.init plot.titleLabel else LabelData.init plot.footerLabel
    scaleData := fun axisPos =>
      (plot.axes axisPos).map fun a =>
        if a.visible then ScaleData.initSome a else ScaleData.initNone
    contentsMargins := plot.canvasContentsMargins
    tickOffset := fun axisPos => tickOffsetOf (plot.axes axisPos)
    numVisibleScales := fun axisPos =>
      ((plot.axes axisPos).filter (fun a => a.visible)).length }

end LayoutData

/-! Engine configuration: the long-lived fields of QwtPlotLayoutEngine. -/

structure EngineConfig where
  legendPos : LegendPosition
  legendRatioQ : ℚ
  canvasMargin : Fin 4 → ℤ
  alignCanvas : Fin 4 → Bool
  spacing : ℤ

/-! Solver output: QwtPlotLayoutEngine::Dimensions. -/

structure Dimensions where
  dimTitle : ℤ
  dimFooter : ℤ
  dimAxisVector : Fin 4 → List ℤ

instance : DecidableEq Dimensions := fun a b =>
  decidable_of_iff
    (a.dimTitle = b.dimTitle ∧ a.dimFooter = b.dimFooter ∧
      a.dimAxisVector = b.dimAxisVector)
    (by cases a; cases b; simp)

namespace Dimensions

/-- Dimensions constructor: all dimensions start at zero, one slot per axis. -/
def initial (ld : LayoutData) : Dimensions :=
  { dimTitle := 0
    dimFooter := 0
    dimAxisVector := fun axisPos => List.replicate (ld.numAxes axisPos) 0 }

def dimAxis (d : Dimensions) (axisPos : Fin 4) (i : ℕ) : ℤ :=
  (d.dimAxisVector axisPos).getD i 0

def setDimAxis (d : Dimensions) (axisPos : Fin 4) (i : ℕ) (v : ℤ) : Dimensions :=
  { d with dimAxisVector :=
      Function.update d.dimAxisVector axisPos ((d.dimAxisVector axisPos).set i v) }

def dimAxes (d : Dimensions) (axisPos : Fin 4) : ℤ := (d.dimAxisVector axisPos).sum

def dimYAxes (d : Dimensions) : ℤ := d.dimAxes yLeft + d.dimAxes yRight

def dimXAxes (d : Dimensions) : ℤ := d.dimAxes xTop + d.dimAxes xBottom

/-- Dimensions::centered: horizontally center a label rect over the canvas. -/
def centered (d : Dimensions) (rect labelRect : RectF) : RectF :=
  ((labelRect.setX (rect.left + (d.dimAxes yLeft : ℚ))).setWidth
    (rect.width - (d.dimYAxes : ℚ)))

/-- Dimensions::innerRect: the rect left over after the axis bands. -/
def innerRect (d : Dimensions) (rect : RectF) : RectF :=
  ⟨rect.x + (d.dimAxes yLeft : ℚ), rect.y + (d.dimAxes xTop : ℚ),
    rect.w - (d.dimYAxes : ℚ), rect.h - (d.dimXAxes : ℚ)⟩

end Dimensions

/-- QwtPlotLayoutEngine::heightForWidth for title (label 0) or footer
(label 1). -/
def heightForWidthE (labelType : Fin 2) (ld : LayoutData) (opts : Options)
    (width : ℚ) (axesWidth : ℤ) : ℤ :=
  let labelData := ld.labelData labelType
  if labelData.textIsEmpty then 0
  else
    let w : ℚ := if ¬ld.hasSymmetricYAxes then width - (axesWidth : ℚ) else width
    let d := ⌈labelData.textHeightForWidth w⌉
    if ¬opts.ignoreFrames then d + 2 * labelData.frameWidth else d

/-- Backbone offset per position: canvas contents margin (unless frames are
ignored) plus the configured canvas margin (unless canvas alignment is on). -/
def backboneOffsetE (cfg : EngineConfig) (ld : LayoutData) (opts : Options)
    (axisPos : Fin 4) : ℤ :=
  (if ¬opts.ignoreFrames then ld.contentsMargins axisPos else 0) +
    (if ¬cfg.alignCanvas axisPos then cfg.canvasMargin axisPos else 0)

/-- Available length for a horizontal (top/bottom) axis inside one solver
iteration, as computed by layoutDimensions. -/
def lengthXAxis (cfg : EngineConfig) (ld : LayoutData) (opts : Options)
    (rect : RectF) (dims : Dimensions) (sd : ScaleData) : ℚ :=
  let l0 : ℚ := rect.width - (dims.dimYAxes : ℚ) - ((sd.start + sd.«end» : ℤ) : ℚ)
  let l1 := if dims.dimAxes yRight > 0 then l0 - 1 else l0
  let l2 := l1 + ((min (dims.dimAxes yLeft)
      (sd.start - backboneOffsetE cfg ld opts yLeft) : ℤ) : ℚ)
  l2 + ((min (dims.dimAxes yRight)
      (sd.«end» - backboneOffsetE cfg ld opts yRight) : ℤ) : ℚ)

/-- Available length for a vertical (left/right) axis inside one solver
iteration, as computed by layoutDimensions. -/
def lengthYAxis (cfg : EngineConfig) (ld : LayoutData) (opts : Options)
    (rect : RectF) (dims : Dimensions) (sd : ScaleData) : ℚ :=
  let l0 : ℚ :=
    rect.height - (dims.dimXAxes : ℚ) - ((sd.start + sd.«end» : ℤ) : ℚ) - 1
  let l1 := if dims.dimAxes xBottom ≤ 0 then l0 - 1 else l0
  let l2 := if dims.dimAxes xTop ≤ 0 then l1 - 1 else l1
  let l3 := if dims.dimAxes xBottom > 0 then
      l2 + min (ld.tickOffset xBottom)
        ((sd.start - backboneOffsetE cfg ld opts xBottom : ℤ) : ℚ)
    else l2
  let l4 := if dims.dimAxes xTop > 0 then
      l3 + min (ld.tickOffset xTop)
        ((sd.«end» - backboneOffsetE cfg ld opts xTop : ℤ) : ℚ)
    else l3
  if dims.dimTitle > 0 then l4 - ((dims.dimTitle + cfg.spacing : ℤ) : ℚ) else l4

/-- One axis slot inside one solver iteration: measure the axis thickness at
its available length and grow the stored dimension if needed. -/
def axisStep (cfg : EngineConfig) (ld : LayoutData) (opts : Options)
    (rect : RectF) (dims : Dimensions) (axisPos : Fin 4) (i : ℕ) : Dimensions :=
  let sd := ld.axisData axisPos i
  if sd.isVisible then
    let length : ℚ :=
      if qwtIsXAxis axisPos then lengthXAxis cfg ld opts rect dims sd
      else lengthYAxis cfg ld opts rect dims sd
    let d := sd.dimWithoutTitle +
      (if ¬sd.titleIsEmpty then sd.titleHeightForWidth ⌊length⌋ else 0)
    if d > dims.dimAxis axisPos i then dims.setDimAxis axisPos i d else dims
  else dims

/-- Iteration order of the axis slots: positions 0..3, slots in index order. -/
def axisSlots (ld : LayoutData) : List (Fin 4 × ℕ) :=
  (List.finRange 4).flatMap fun axisPos =>
    (List.range (ld.numAxes axisPos)).map fun i => (axisPos, i)

/-- One full iteration of the layoutDimensions loop body: title, footer, then
every axis slot, each update seeing the earlier updates of the same pass. -/
def layoutStep (cfg : EngineConfig) (ld : LayoutData) (opts : Options)
    (rect : RectF) (dims : Dimensions) : Dimensions :=
  let d1 :=
    if ¬opts.ignoreTitle then
      let d := heightForWidthE 0 ld opts rect.width dims.dimYAxes
      if d > dims.dimTitle then { dims with dimTitle := d } else dims
    else dims
  let d2 :=
    if ¬opts.ignoreFooter then
      let d := heightForWidthE 1 ld opts rect.width d1.dimYAxes
      if d > d1.dimFooter then { d1 with dimFooter := d } else d1
    else d1
  (axisSlots ld).foldl
    (fun acc pi => axisStep cfg ld opts rect acc pi.1 pi.2) d2

/-- The while loop of layoutDimensions, unrolled with fuel: stop as soon as an
iteration produces no change. -/
def layoutLoop (cfg : EngineConfig) (ld : LayoutData) (opts : Options)
    (rect : RectF) : ℕ → Dimensions → Dimensions
  | 0, dims => dims
  | n + 1, dims =>
      let d := layoutStep cfg ld opts rect dims
      if d = dims then dims else layoutLoop cfg ld opts rect n d

/-- QwtPlotLayoutEngine::layoutDimensions, with the loop bounded by fuel. -/
def layoutDimensions (cfg : EngineConfig) (fuel : ℕ) (opts : Options)
    (ld : LayoutData) (rect : RectF) : Dimensions :=
  layoutLoop cfg ld opts rect fuel (Dimensions.initial ld)

/-- QwtPlotLayoutEngine::layoutLegend: carve the legend rectangle out of one
side of the rect. -/
def layoutLegend (cfg : EngineConfig) (opts : Options)
    (legendData : LegendData) (rect : RectF) : RectF :=
  let dim : ℤ :=
    if cfg.legendPos = .LeftLegend ∨ cfg.legendPos = .RightLegend then
      let d0 := min legendData.hintW (cppToInt (rect.width * cfg.legendRatioQ))
      if ¬opts.ignoreScrollbars ∧ (legendData.hintH : ℚ) > rect.height then
        d0 + legendData.hScrollExtent
      else d0
    else
      let d0 := min legendData.hintH (cppToInt (rect.height * cfg.legendRatioQ))
      max d0 legendData.vScrollExtent
  match cfg.legendPos with
  | .LeftLegend => rect.setWidth (dim : ℚ)
  | .RightLegend => (rect.setX (rect.right - (dim : ℚ))).setWidth (dim : ℚ)
  | .TopLegend => rect.setHeight (dim : ℚ)
  | .BottomLegend => (rect.setY (rect.bottom - (dim : ℚ))).setHeight (dim : ℚ)

/-- QwtPlotLayoutEngine::alignLegend: stretch the legend to the canvas span
when its hint is smaller. -/
def alignLegend (cfg : EngineConfig) (legendData : LegendData)
    (canvasRect legendRect : RectF) : RectF :=
  if cfg.legendPos = .BottomLegend ∨ cfg.legendPos = .TopLegend then
    if (legendData.hintW : ℚ) < canvasRect.width then
      (legendRect.setX canvasRect.x).setWidth canvasRect.width
    else legendRect
  else
    if (legendData.hintH : ℚ) < canvasRect.height then
      (legendRect.setY canvasRect.y).setHeight canvasRect.height
    else legendRect

/-! Scale aligner: QwtPlotLayoutEngine::alignScales. The canvas rect and the
scale rects are threaded through two passes of per-slot updates. -/

structure AlignState where
  canvas : RectF
  rects : Fin 4 → List RectF

/-- First alignScales pass for one x-axis (top/bottom) slot. -/
def alignStep1X (cfg : EngineConfig) (bb : Fin 4 → ℤ) (st : AlignState)
    (axisRect : RectF) (startDist endDist : ℤ) : RectF × RectF :=
  let leftScaleRect := (st.rects yLeft).getD 0 nullRectF
  let leftOffset := bb yLeft - startDist
  let (canvas1, axisRect1) :=
    if leftScaleRect.isValid then
      let dx : ℚ := (leftOffset : ℚ) + leftScaleRect.width
      if cfg.alignCanvas yLeft ∧ dx < 0 then
        (st.canvas.setLeft (max st.canvas.left (axisRect.left - dx)), axisRect)
      else
        (st.canvas,
          axisRect.setLeft (max (axisRect.left + (leftOffset : ℚ)) leftScaleRect.left))
    else
      if cfg.alignCanvas yLeft ∧ leftOffset < 0 then
        (st.canvas.setLeft (max st.canvas.left (axisRect.left - (leftOffset : ℚ))),
          axisRect)
      else
        (st.canvas,
          if leftOffset > 0 then axisRect.setLeft (axisRect.left + (leftOffset : ℚ))
          else axisRect)
  let rightScaleRect := (st.rects yRight).getD 0 nullRectF
  let rightOffset := bb yRight - endDist + 1
  if rightScaleRect.isValid then
    let dx : ℚ := (rightOffset : ℚ) + rightScaleRect.width
    let canvas2 :=
      if cfg.alignCanvas yRight ∧ dx < 0 then
        canvas1.setRight (min canvas1.right (axisRect1.right + dx))
      else canvas1
    (canvas2,
      axisRect1.setRight
        (min (axisRect1.right - (rightOffset : ℚ)) rightScaleRect.right))
  else
    if cfg.alignCanvas yRight ∧ rightOffset < 0 then
      (canvas1.setRight (min canvas1.right (axisRect1.right + (rightOffset : ℚ))),
        axisRect1)
    else
      (canvas1,
        if rightOffset > 0 then
          axisRect1.setRight (axisRect1.right - (rightOffset : ℚ))
        else axisRect1)

/-- First alignScales pass for one y-axis (left/right) slot. -/
def alignStep1Y (cfg : EngineConfig) (ld : LayoutData) (bb : Fin 4 → ℤ)
    (st : AlignState) (axisRect : RectF) (startDist endDist : ℤ) :
    RectF × RectF :=
  let bottomScaleRect := (st.rects xBottom).getD 0 nullRectF
  let bottomOffset := bb xBottom - endDist + 1
  let (canvas1, axisRect1) :=
    if bottomScaleRect.isValid then
      let dy : ℚ := (bottomOffset : ℚ) + bottomScaleRect.height
      if cfg.alignCanvas xBottom ∧ dy < 0 then
        (st.canvas.setBottom (min st.canvas.bottom (axisRect.bottom + dy)), axisRect)
      else
        let maxBottom := bottomScaleRect.top + ld.tickOffset xBottom
        (st.canvas,
          axisRect.setBottom (min (axisRect.bottom - (bottomOffset : ℚ)) maxBottom))
    else
      if cfg.alignCanvas xBottom ∧ bottomOffset < 0 then
        (st.canvas.setBottom
            (min st.canvas.bottom (axisRect.bottom + (bottomOffset : ℚ))), axisRect)
      else
        (st.canvas,
          if bottomOffset > 0 then
            axisRect.setBottom (axisRect.bottom - (bottomOffset : ℚ))
          else axisRect)
  let topScaleRect := (st.rects xTop).getD 0 nullRectF
  let topOffset := bb xTop - startDist
  if topScaleRect.isValid then
    let dy : ℚ := (topOffset : ℚ) + topScaleRect.height
    if cfg.alignCanvas xTop ∧ dy < 0 then
      (canvas1.setTop (max canvas1.top (axisRect1.top - dy)), axisRect1)
    else
      let minTop := topScaleRect.bottom - ld.tickOffset xTop
      (canvas1, axisRect1.setTop (max (axisRect1.top + (topOffset : ℚ)) minTop))
  else
    if cfg.alignCanvas xTop ∧ topOffset < 0 then
      (canvas1.setTop (max canvas1.top (axisRect1.top - (topOffset : ℚ))), axisRect1)
    else
      (canvas1,
        if topOffset > 0 then axisRect1.setTop (axisRect1.top + (topOffset : ℚ))
        else axisRect1)

/-- First alignScales pass, one slot: skip invalid rects, otherwise align the
slot against the neighbouring scales, possibly shrinking the canvas. -/
def alignStep1 (cfg : EngineConfig) (ld : LayoutData) (bb : Fin 4 → ℤ)
    (st : AlignState) (pi : Fin 4 × ℕ) : AlignState :=
  let axisRect := (st.rects pi.1).getD pi.2 nullRectF
  if ¬axisRect.isValid then st
  else
    let sd := ld.axisData pi.1 pi.2
    let (canvas, axisRect) :=
      if qwtIsXAxis pi.1 then alignStep1X cfg bb st axisRect sd.start sd.«end»
      else alignStep1Y cfg ld bb st axisRect sd.start sd.«end»
    ⟨canvas, Function.update st.rects pi.1 ((st.rects pi.1).set pi.2 axisRect)⟩

/-- Second alignScales pass, one slot: force edges flush with the canvas for
every side whose alignment flag is on. -/
def alignStep2 (cfg : EngineConfig) (ld : LayoutData) (opts : Options)
    (st : AlignState) (pi : Fin 4 × ℕ) : AlignState :=
  let sRect := (st.rects pi.1).getD pi.2 nullRectF
  if ¬sRect.isValid then st
  else
    let sd := ld.axisData pi.1 pi.2
    let canvasRect := st.canvas
    let sRect :=
      if qwtIsXAxis pi.1 then
        let s1 :=
          if cfg.alignCanvas yLeft then
            let v := canvasRect.left - (sd.start : ℚ) +
              (if ¬opts.ignoreFrames then (ld.contentsMargins yLeft : ℚ) else 0)
            sRect.setLeft v
          else sRect
        let s2 :=
          if cfg.alignCanvas yRight then
            let v := canvasRect.right - 1 + (sd.«end» : ℚ) -
              (if ¬opts.ignoreFrames then (ld.contentsMargins yRight : ℚ) else 0)
            s1.setRight v
          else s1
        if cfg.alignCanvas pi.1 then
          if pi.1 = xTop then s2.setBottom canvasRect.top
          else s2.setTop canvasRect.bottom
        else s2
      else
        let s1 :=
          if cfg.alignCanvas xTop then
            let v := canvasRect.top - (sd.start : ℚ) +
              (if ¬opts.ignoreFrames then (ld.contentsMargins xTop : ℚ) else 0)
            sRect.setTop v
          else sRect
        let s2 :=
          if cfg.alignCanvas xBottom then
            let v := canvasRect.bottom - 1 + (sd.«end» : ℚ) -
              (if ¬opts.ignoreFrames then (ld.contentsMargins xBottom : ℚ) else 0)
            s1.setBottom v
          else s1
        if cfg.alignCanvas pi.1 then
          if pi.1 = yLeft then s2.setRight canvasRect.left
          else s2.setLeft canvasRect.right
        else s2
    ⟨st.canvas, Function.update st.rects pi.1 ((st.rects pi.1).set pi.2 sRect)⟩

/-- QwtPlotLayoutEngine::alignScales. -/
def alignScales (cfg : EngineConfig) (opts : Options) (ld : LayoutData)
    (canvasRect : RectF) (scaleRects : Fin 4 → List RectF) : AlignState :=
  let bb := backboneOffsetE cfg ld opts
  let st1 := (axisSlots ld).foldl (alignStep1 cfg ld bb) ⟨canvasRect, scaleRects⟩
  (axisSlots ld).foldl (alignStep2 cfg ld opts) st1

/-! QwtPlotLayout: the stateful wrapper (PrivateData rects) and activate. -/

structure LayoutState where
  titleRect : RectF
  footerRect : RectF
  legendRect : RectF
  canvasRect : RectF
  scaleRects : Fin 4 → List RectF

/-- QwtPlotLayout::invalidate: null all rects, shrink each scale vector to a
single null entry. -/
def invalidateState (_s : LayoutState) : LayoutState :=
  { titleRect := nullRectF
    footerRect := nullRectF
    legendRect := nullRectF
    canvasRect := nullRectF
    scaleRects := fun _ => [nullRectF] }

/-- QVector::resize: keep the prefix, pad with default-constructed entries. -/
def vresize (l : List RectF) (n : ℕ) : List RectF :=
  l.take n ++ List.replicate (n - l.length) nullRectF

/-- One slot of the axis-placement loop in activate: a slot with a nonzero
dimension gets a strip outside the canvas and advances the stacking offset. -/
def placeAxesStep (canvasRect : RectF) (dims : Dimensions) (axisPos : Fin 4)
    (st : ℤ × List RectF) (i : ℕ) : ℤ × List RectF :=
  if dims.dimAxis axisPos i ≠ 0 then
    let dim := dims.dimAxis axisPos i
    let base := canvasRect
    let r :=
      if axisPos = yLeft then
        (base.setX (canvasRect.left - (st.1 : ℚ) - (dim : ℚ))).setWidth (dim : ℚ)
      else if axisPos = yRight then
        (base.setX (canvasRect.right + (st.1 : ℚ))).setWidth (dim : ℚ)
      else if axisPos = xBottom then
        (base.setY (canvasRect.bottom + (st.1 : ℚ))).setHeight (dim : ℚ)
      else
        (base.setY (canvasRect.top - (st.1 : ℚ) - (dim : ℚ))).setHeight (dim : ℚ)
    (st.1 + dim, st.2.set i r.normalized)
  else st

/-- The axis-placement loop of activate for one position. -/
def placeAxes (canvasRect : RectF) (dims : Dimensions) (axisPos : Fin 4)
    (rects : List RectF) : List RectF :=
  ((List.range rects.length).foldl (placeAxesStep canvasRect dims axisPos)
    (0, rects)).2

/-- QwtPlotLayout::activate: recalculate the geometry of all components. -/
def activate (cfg : EngineConfig) (fuel : ℕ) (plot : PlotInput)
    (plotRect : RectF) (opts : Options) (s : LayoutState) : LayoutState :=
  let rect := plotRect
  let ld := LayoutData.init plot rect
  -- legend carve-out
  let sr1 : LayoutState × RectF :=
    if ¬opts.ignoreLegend ∧ plot.legendW.isSome ∧
        ¬(plot.legendW.getD ⟨true, 0, 0, 0, 0, 0, fun _ => 0⟩).isEmptyW then
      let legendRect := layoutLegend cfg opts ld.legendData rect
      let rect1 :=
        rectFOfRectI (regionSubBounding rect.toRect legendRect.toRect)
      let rect2 :=
        match cfg.legendPos with
        | .LeftLegend => rect1.setLeft (rect1.left + (cfg.spacing : ℚ))
        | .RightLegend => rect1.setRight (rect1.right - (cfg.spacing : ℚ))
        | .TopLegend => rect1.setTop (rect1.top + (cfg.spacing : ℚ))
        | .BottomLegend => rect1.setBottom (rect1.bottom - (cfg.spacing : ℚ))
      ({ s with legendRect := legendRect }, rect2)
    else (s, rect)
  let s1 := sr1.1
  let rect := sr1.2
  let dims := layoutDimensions cfg fuel opts ld rect
  -- title band
  let sr2 : LayoutState × RectF :=
    if dims.dimTitle > 0 then
      let labelRect := RectF.setRect rect.left rect.top rect.width (dims.dimTitle : ℚ)
      let rect' := rect.setTop (labelRect.bottom + (cfg.spacing : ℚ))
      let labelRect' :=
        if ¬ld.hasSymmetricYAxes then dims.centered rect' labelRect else labelRect
      ({ s1 with titleRect := labelRect' }, rect')
    else (s1, rect)
  let s2 := sr2.1
  let rect := sr2.2
  -- footer band
  let sr3 : LayoutState × RectF :=
    if dims.dimFooter > 0 then
      let labelRect := RectF.setRect rect.left (rect.bottom - (dims.dimFooter : ℚ))
        rect.width (dims.dimFooter : ℚ)
      let rect' := rect.setBottom (labelRect.top - (cfg.spacing : ℚ))
      let labelRect' :=
        if ¬ld.hasSymmetricYAxes then dims.centered rect' labelRect else labelRect
      ({ s2 with footerRect := labelRect' }, rect')
    else (s2, rect)
  let s3 := sr3.1
  let rect := sr3.2
  let canvasRect := dims.innerRect rect
  let scaleRects := fun axisPos => placeAxes canvasRect dims axisPos (s3.scaleRects axisPos)
  let aligned := alignScales cfg opts ld canvasRect scaleRects
  let legendRect :=
    if ¬s3.legendRect.isEmpty then
      alignLegend cfg ld.legendData aligned.canvas s3.legendRect
    else s3.legendRect
  { titleRect := s3.titleRect
    footerRect := s3.footerRect
    legendRect := legendRect
    canvasRect := aligned.canvas
    scaleRects := aligned.rects }

/-- QwtPlotLayout::update: invalidate, resize the scale-rect vectors to the
axis counts, then activate. -/
def updateLayout (cfg : EngineConfig) (fuel : ℕ) (plot : PlotInput)
    (plotRect : RectF) (opts : Options) (s : LayoutState) : LayoutState :=
  let s0 := invalidateState s
  let s1 := { s0 with scaleRects := (fun axisPos =>
    vresize (s0.scaleRects axisPos) (plot.axes axisPos).length) }
  activate cfg fuel plot plotRect opts s1

/-! Configuration setters of QwtPlotLayout (they only touch the engine). -/

/-- QwtPlotLayout::setLegendPosition(pos, ratio). -/
def setLegendPositionRatio (cfg : EngineConfig) (pos : LegendPosition)
    (ratio : ℚ) : EngineConfig :=
  let ratio1 := if ratio > 1 then 1 else ratio
  match pos with
  | .TopLegend | .BottomLegend =>
      let r := if ratio1 ≤ 0 then 33 / 100 else ratio1
      { cfg with legendRatioQ := r, legendPos := pos }
  | .LeftLegend | .RightLegend =>
      let r := if ratio1 ≤ 0 then 1 / 2 else ratio1
      { cfg with legendRatioQ := r, legendPos := pos }

/-- QwtPlotLayout::setLegendPosition(pos): ratio 0.0, meaning the default. -/
def setLegendPositionOnly (cfg : EngineConfig) (pos : LegendPosition) :
    EngineConfig :=
  setLegendPositionRatio cfg pos 0

/-- QwtPlotLayout::setLegendRatio. -/
def setLegendRatioE (cfg : EngineConfig) (ratio : ℚ) : EngineConfig :=
  setLegendPositionRatio cfg cfg.legendPos ratio

/-- QwtPlotLayout::setSpacing. -/
def setSpacingE (cfg : EngineConfig) (spacing : ℤ) : EngineConfig :=
  { cfg with spacing := max 0 spacing }

/-- QwtPlotLayout::setCanvasMargin(margin, axisPos): clamp below to -1;
axisPos -1 sets all positions, an in-range position sets one, anything else
is ignored. -/
def setCanvasMarginE (cfg : EngineConfig) (margin axisPos : ℤ) : EngineConfig :=
  let m := if margin < -1 then -1 else margin
  if axisPos = -1 then { cfg with canvasMargin := fun _ => m }
  else if h : 0 ≤ axisPos ∧ axisPos < 4 then
    { cfg with canvasMargin :=
        Function.update cfg.canvasMargin ⟨axisPos.toNat, by omega⟩ m }
  else cfg

/-- QwtPlotLayout::setAlignCanvasToScales. -/
def setAlignCanvasToScalesE (cfg : EngineConfig) (flag : Bool) : EngineConfig :=
  { cfg with alignCanvas := fun _ => flag }

/-- QwtPlotLayout::setAlignCanvasToScale. -/
def setAlignCanvasToScaleE (cfg : EngineConfig) (axisPos : ℤ) (flag : Bool) :
    EngineConfig :=
  if h : 0 ≤ axisPos ∧ axisPos < 4 then
    { cfg with alignCanvas :=
        Function.update cfg.alignCanvas ⟨axisPos.toNat, by omega⟩ flag }
  else cfg

/-- State established by the QwtPlotLayout constructor: BottomLegend with the
default ratio 0.33, canvas margin 4 everywhere, no canvas alignment, and the
engine's initial spacing 5. -/
def defaultEngineConfig : EngineConfig :=
  { legendPos := .BottomLegend
    legendRatioQ := 33 / 100
    canvasMargin := fun _ => 4
    alignCanvas := fun _ => false
    spacing := 5 }

/-! Bounds-checked per-axis accessors of QwtPlotLayout, over raw ℤ ids. -/

/-- QwtPlotLayout::scaleRect: QRectF() outside the valid range. -/
def scaleRectAt (s : LayoutState) (pos id : ℤ) : RectF :=
  if h : 0 ≤ pos ∧ pos < 4 then
    let v := s.scaleRects ⟨pos.toNat, by omega⟩
    if 0 ≤ id ∧ id < (v.length : ℤ) then v.getD id.toNat nullRectF else nullRectF
  else nullRectF

/-- QwtPlotLayout::setScaleRect: no-op outside the valid range. -/
def setScaleRectAt (s : LayoutState) (pos id : ℤ) (rect : RectF) : LayoutState :=
  if h : 0 ≤ pos ∧ pos < 4 then
    let p : Fin 4 := ⟨pos.toNat, by omega⟩
    if 0 ≤ id ∧ id < ((s.scaleRects p).length : ℤ) then
      { s with scaleRects :=
          Function.update s.scaleRects p ((s.scaleRects p).set id.toNat rect) }
    else s
  else s

/-- QwtPlotLayout::canvasMargin: 0 outside the valid range. -/
def canvasMarginAt (cfg : EngineConfig) (axisId : ℤ) : ℤ :=
  if h : axisId < 0 ∨ 4 ≤ axisId then 0
  else cfg.canvasMargin ⟨axisId.toNat, by omega⟩

/-- QwtPlotLayout::alignCanvasToScale: false outside the valid range. -/
def alignCanvasToScaleAt (cfg : EngineConfig) (axisPos : ℤ) : Bool :=
  if h : axisPos < 0 ∨ 4 ≤ axisPos then false
  else cfg.alignCanvas ⟨axisPos.toNat, by omega⟩

/-! Definitions transcribed from the words of the SPEC/claims (not from the
source), used to compare the claimed formulas against the code. -/

/-- Modelled from the spec: the horizontal-axis available length exactly as
claim C2 words it (no pixel correction term). -/
def claimLengthX (cfg : EngineConfig) (ld : LayoutData) (opts : Options)
    (rect : RectF) (dims : Dimensions) (sd : ScaleData) : ℚ :=
  rect.width - (dims.dimYAxes : ℚ) - ((sd.start + sd.«end» : ℤ) : ℚ) +
    ((min (dims.dimAxes yLeft) (sd.start - backboneOffsetE cfg ld opts yLeft) : ℤ) : ℚ) +
    ((min (dims.dimAxes yRight) (sd.«end» - backboneOffsetE cfg ld opts yRight) : ℤ) : ℚ)

/-- Modelled from the spec: the vertical-axis available length as claim C2
words it: a 1-pixel reduction per absent opposing horizontal axis (and none
when both are present), tick-offset credits, title deduction. -/
def claimLengthY (cfg : EngineConfig) (ld : LayoutData) (opts : Options)
    (rect : RectF) (dims : Dimensions) (sd : ScaleData) : ℚ :=
  rect.height - (dims.dimXAxes : ℚ) - ((sd.start + sd.«end» : ℤ) : ℚ) -
    (if dims.dimAxes xBottom ≤ 0 then 1 else 0) -
    (if dims.dimAxes xTop ≤ 0 then 1 else 0) +
    (if dims.dimAxes xBottom > 0 then
      min (ld.tickOffset xBottom)
        ((sd.start - backboneOffsetE cfg ld opts xBottom : ℤ) : ℚ) else 0) +
    (if dims.dimAxes xTop > 0 then
      min (ld.tickOffset xTop)
        ((sd.«end» - backboneOffsetE cfg ld opts xTop : ℤ) : ℚ) else 0) -
    (if dims.dimTitle > 0 then ((dims.dimTitle + cfg.spacing : ℤ) : ℚ) else 0)

/-- Modelled from the spec: legend thickness as claim C4 words it: the min of
the hint and the rect span times the ratio, plus the scroll extent only when
the perpendicular content overflows and scrollbars are not ignored. -/
def claimLegendThickness (cfg : EngineConfig) (opts : Options)
    (legendData : LegendData) (rect : RectF) : ℤ :=
  if cfg.legendPos = .LeftLegend ∨ cfg.legendPos = .RightLegend then
    min legendData.hintW (cppToInt (rect.width * cfg.legendRatioQ)) +
      (if ¬opts.ignoreScrollbars ∧ (legendData.hintH : ℚ) > rect.height then
        legendData.hScrollExtent else 0)
  else
    min legendData.hintH (cppToInt (rect.height * cfg.legendRatioQ)) +
      (if ¬opts.ignoreScrollbars ∧ (legendData.hintW : ℚ) > rect.width then
        legendData.vScrollExtent else 0)

/-- Modelled from the spec: the input rect shrunk by the canvas frame/content
margins, as claim C5 predicts for the zero-content canvas rect. -/
def claimCollapsedCanvas (rect : RectF) (margins : Fin 4 → ℤ) : RectF :=
  ⟨rect.x + (margins yLeft : ℚ), rect.y + (margins xTop : ℚ),
    rect.w - (margins yLeft : ℚ) - (margins yRight : ℚ),
    rect.h - (margins xTop : ℚ) - (margins xBottom : ℚ)⟩

/-! Generic helper lemmas. -/

lemma getD_replicate_self {α} (z : α) (n i : ℕ) :
    (List.replicate n z).getD i z = z := by
  induction n generalizing i with
  | zero => simp [List.getD]
  | succ m ih =>
    cases i with
    | zero => simp [List.replicate_succ]
    | succ j => simp [List.replicate_succ, ih j]

lemma foldl_id_of_fixed {α β} (f : α → β → α) (c : α) (l : List β)
    (h : ∀ x ∈ l, f c x = c) : l.foldl f c = c := by
  induction l with
  | nil => rfl
  | cons a t ih =>
    rw [List.foldl_cons, h a (by simp)]
    exact ih fun x hx => h x (by simp [hx])

lemma foldl_preserve {α β} (P : α → Prop) (f : α → β → α) (l : List β)
    (h : ∀ acc x, P acc → P (f acc x)) :
    ∀ acc, P acc → P (l.foldl f acc) := by
  induction l with
  | nil => exact fun acc hacc => hacc
  | cons a t ih => exact fun acc hacc => ih (f acc a) (h acc a hacc)

lemma getD_map_of_lt {α β} (f : α → β) (l : List α) (i : ℕ) (h : i < l.length)
    (d : β) (d' : α) : (l.map f).getD i d = f (l.getD i d') := by
  induction l generalizing i with
  | nil => simp at h
  | cons a t ih =>
    cases i with
    | zero => simp
    | succ j => simpa using ih j (by simpa using h)

lemma getD_set_ne {α} (l : List α) (i j : ℕ) (v : α) (d : α) (hne : i ≠ j) :
    (l.set j v).getD i d = l.getD i d := by
  induction l generalizing i j with
  | nil => simp [List.set]
  | cons a t ih =>
    cases j with
    | zero => cases i with
      | zero => exact absurd rfl hne
      | succ k => simp [List.set]
    | succ m => cases i with
      | zero => simp [List.set]
      | succ k => simpa [List.set] using ih k m (by omega)

/-! Pointwise order on Dimensions and monotonicity of the solver step. -/

lemma forall2_le_refl (l : List ℤ) :
    List.Forall₂ (fun a b => a ≤ b) l l := by
  induction l with
  | nil => exact List.Forall₂.nil
  | cons a t ih => exact List.Forall₂.cons le_rfl ih

lemma forall2_le_trans {l1 l2 l3 : List ℤ}
    (h1 : List.Forall₂ (fun a b => a ≤ b) l1 l2)
    (h2 : List.Forall₂ (fun a b => a ≤ b) l2 l3) :
    List.Forall₂ (fun a b => a ≤ b) l1 l3 := by
  induction h1 generalizing l3 with
  | nil => cases h2; exact List.Forall₂.nil
  | cons h t ih =>
    cases h2 with
    | cons h' t' => exact List.Forall₂.cons (le_trans h h') (ih t')

lemma forall2_le_set (l : List ℤ) (i : ℕ) (v : ℤ) (h : l.getD i 0 ≤ v) :
    List.Forall₂ (fun a b => a ≤ b) l (l.set i v) := by
  induction l generalizing i with
  | nil => simp [List.set]
  | cons a t ih =>
    cases i with
    | zero =>
      simp only [List.getD_cons_zero] at h
      exact List.Forall₂.cons h (forall2_le_refl t)
    | succ j =>
      simp only [List.getD_cons_succ] at h
      exact List.Forall₂.cons le_rfl (ih j h)

/-- Pointwise order on solver dimensions: every stored value of the first is
at most the corresponding value of the second (same shapes). -/
def DimsLE (a b : Dimensions) : Prop :=
  a.dimTitle ≤ b.dimTitle ∧ a.dimFooter ≤ b.dimFooter ∧
    ∀ p : Fin 4, List.Forall₂ (fun u v => u ≤ v) (a.dimAxisVector p) (b.dimAxisVector p)

lemma dimsLE_refl (a : Dimensions) : DimsLE a a :=
  ⟨le_rfl, le_rfl, fun p => forall2_le_refl (a.dimAxisVector p)⟩

lemma dimsLE_trans {a b c : Dimensions} (h1 : DimsLE a b) (h2 : DimsLE b c) :
    DimsLE a c :=
  ⟨le_trans h1.1 h2.1, le_trans h1.2.1 h2.2.1,
    fun p => forall2_le_trans (h1.2.2 p) (h2.2.2 p)⟩

lemma dimsLE_setDimAxis (d : Dimensions) (p : Fin 4) (i : ℕ) (v : ℤ)
    (h : d.dimAxis p i ≤ v) : DimsLE d (d.setDimAxis p i v) := by
  refine ⟨le_rfl, le_rfl, fun q => ?_⟩
  by_cases hq : q = p
  · subst hq
    simpa [Dimensions.setDimAxis] using
      forall2_le_set (d.dimAxisVector q) i v h
  · simp [Dimensions.setDimAxis, Function.update_apply, hq, forall2_le_refl]

/-- Conditional one-slot update of the solver, abstracted over the guard and
the measured value. -/
lemma dimsLE_condSet (d : Dimensions) (p : Fin 4) (i : ℕ) (c : Prop)
    [Decidable c] (v : ℤ) :
    DimsLE d (if c then (if v > d.dimAxis p i then d.setDimAxis p i v else d)
      else d) := by
  split
  · split
    · next hgt => exact dimsLE_setDimAxis d p i v (le_of_lt hgt)
    · exact dimsLE_refl d
  · exact dimsLE_refl d

lemma dimsLE_axisStep (cfg : EngineConfig) (ld : LayoutData) (opts : Options)
    (rect : RectF) (d : Dimensions) (p : Fin 4) (i : ℕ) :
    DimsLE d (axisStep cfg ld opts rect d p i) := by
  unfold axisStep
  exact dimsLE_condSet d p i _ _

/-- Title/footer conditional update of one step, abstracted. -/
lemma dimsLE_titleUpd (x : Dimensions) (c : Prop) [Decidable c] (v : ℤ) :
    DimsLE x (if c then (if v > x.dimTitle then { x with dimTitle := v } else x)
      else x) := by
  split
  · split
    · next hgt => exact ⟨le_of_lt hgt, le_rfl, fun p => forall2_le_refl _⟩
    · exact dimsLE_refl x
  · exact dimsLE_refl x

lemma dimsLE_footerUpd (x : Dimensions) (c : Prop) [Decidable c] (v : ℤ) :
    DimsLE x (if c then (if v > x.dimFooter then { x with dimFooter := v } else x)
      else x) := by
  split
  · split
    · next hgt => exact ⟨le_rfl, le_of_lt hgt, fun p => forall2_le_refl _⟩
    · exact dimsLE_refl x
  · exact dimsLE_refl x

lemma dimsLE_axesFold (cfg : EngineConfig) (ld : LayoutData) (opts : Options)
    (rect : RectF) (l : List (Fin 4 × ℕ)) :
    ∀ x : Dimensions, DimsLE x
      (l.foldl (fun acc pi => axisStep cfg ld opts rect acc pi.1 pi.2) x) := by
  induction l with
  | nil => exact fun x => dimsLE_refl x
  | cons a t ih =>
    intro x
    exact dimsLE_trans (dimsLE_axisStep cfg ld opts rect x a.1 a.2)
      (ih (axisStep cfg ld opts rect x a.1 a.2))

lemma dimsLE_layoutStep (cfg : EngineConfig) (ld : LayoutData) (opts : Options)
    (rect : RectF) (d : Dimensions) :
    DimsLE d (layoutStep cfg ld opts rect d) := by
  unfold layoutStep
  exact dimsLE_trans
    (dimsLE_titleUpd d (¬opts.ignoreTitle = true) _)
    (dimsLE_trans (dimsLE_footerUpd _ (¬opts.ignoreFooter = true) _)
      (dimsLE_axesFold cfg ld opts rect _ _))

/-! Termination of the solver loop under bounded measurement callbacks. -/

/-- Total of all solver dimensions. -/
def sumDims (d : Dimensions) : ℤ :=
  d.dimTitle + d.dimFooter + (d.dimAxisVector 0).sum + (d.dimAxisVector 1).sum +
    (d.dimAxisVector 2).sum + (d.dimAxisVector 3).sum

lemma forall2_sum_le {l1 l2 : List ℤ}
    (h : List.Forall₂ (fun a b => a ≤ b) l1 l2) : l1.sum ≤ l2.sum := by
  induction h with
  | nil => exact le_refl 0
  | cons hab _ ih => simpa using add_le_add hab ih

lemma forall2_sum_lt_of_ne {l1 l2 : List ℤ}
    (h : List.Forall₂ (fun a b => a ≤ b) l1 l2) (hne : l1 ≠ l2) :
    l1.sum < l2.sum := by
  induction h with
  | nil => exact absurd rfl hne
  | @cons a b t1 t2 hab ht ih =>
    by_cases hab' : a = b
    · subst hab'
      have htne : t1 ≠ t2 := fun he => hne (by rw [he])
      simpa using add_lt_add_left (ih htne) a
    · have hlt : a < b := lt_of_le_of_ne hab hab'
      simpa using add_lt_add_of_lt_of_le hlt (forall2_sum_le ht)

lemma dims_eq_of_parts {a b : Dimensions} (ht : a.dimTitle = b.dimTitle)
    (hf : a.dimFooter = b.dimFooter)
    (hv : ∀ p : Fin 4, a.dimAxisVector p = b.dimAxisVector p) : a = b := by
  cases a; cases b
  simp only [Dimensions.mk.injEq] at ht hf hv ⊢
  exact ⟨ht, hf, funext hv⟩

lemma sumDims_lt_of_ne {a b : Dimensions} (h : DimsLE a b) (hne : a ≠ b) :
    sumDims a < sumDims b := by
  have s0 := forall2_sum_le (h.2.2 0)
  have s1 := forall2_sum_le (h.2.2 1)
  have s2 := forall2_sum_le (h.2.2 2)
  have s3 := forall2_sum_le (h.2.2 3)
  have hcases : a.dimTitle ≠ b.dimTitle ∨ a.dimFooter ≠ b.dimFooter ∨
      ∃ p : Fin 4, a.dimAxisVector p ≠ b.dimAxisVector p := by
    by_contra hcontra
    push_neg at hcontra
    exact hne (dims_eq_of_parts hcontra.1 hcontra.2.1 hcontra.2.2)
  unfold sumDims
  rcases hcases with hT | hF | ⟨p, hP⟩
  · have : a.dimTitle < b.dimTitle := lt_of_le_of_ne h.1 hT
    have hf := h.2.1
    omega
  · have : a.dimFooter < b.dimFooter := lt_of_le_of_ne h.2.1 hF
    have ht := h.1
    omega
  · have ht := h.1
    have hf := h.2.1
    fin_cases p
    · have := forall2_sum_lt_of_ne (h.2.2 0) hP
      omega
    · have := forall2_sum_lt_of_ne (h.2.2 1) hP
      omega
    · have := forall2_sum_lt_of_ne (h.2.2 2) hP
      omega
    · have := forall2_sum_lt_of_ne (h.2.2 3) hP
      omega

/-- Boundedness of the measurement callbacks appearing in the snapshot: the
title/footer height-for-width functions and every axis title callback. -/
def BoundedCallbacks (ld : LayoutData) (C : ℤ) : Prop :=
  (∀ t : Fin 2, ∀ w : ℚ, (ld.labelData t).textHeightForWidth w ≤ (C : ℚ)) ∧
    (∀ p : Fin 4, ∀ sd ∈ ld.scaleData p, ∀ n : ℤ, sd.titleHeightForWidth n ≤ C)

/-- Sum of the absolute intrinsic dimensions of all axis slots. -/
def dimWTBound (ld : LayoutData) : ℤ :=
  ((ld.scaleData 0).map (fun sd => |sd.dimWithoutTitle|)).sum +
    ((ld.scaleData 1).map (fun sd => |sd.dimWithoutTitle|)).sum +
    ((ld.scaleData 2).map (fun sd => |sd.dimWithoutTitle|)).sum +
    ((ld.scaleData 3).map (fun sd => |sd.dimWithoutTitle|)).sum

/-- One common upper bound for every value the solver can ever store. -/
def boundM (ld : LayoutData) (C : ℤ) : ℤ :=
  |C| + 1 +
    2 * (|(ld.labelData 0).frameWidth| + |(ld.labelData 1).frameWidth|) +
    dimWTBound ld

lemma absMapSum_nonneg (l : List ScaleData) :
    0 ≤ (l.map (fun sd => |sd.dimWithoutTitle|)).sum := by
  apply List.sum_nonneg
  intro x hx
  rcases List.mem_map.mp hx with ⟨sd, _, rfl⟩
  exact abs_nonneg _

lemma dimWTBound_nonneg (ld : LayoutData) : 0 ≤ dimWTBound ld := by
  have h0 := absMapSum_nonneg (ld.scaleData 0)
  have h1 := absMapSum_nonneg (ld.scaleData 1)
  have h2 := absMapSum_nonneg (ld.scaleData 2)
  have h3 := absMapSum_nonneg (ld.scaleData 3)
  unfold dimWTBound
  omega

lemma boundM_nonneg (ld : LayoutData) (C : ℤ) : 0 ≤ boundM ld C := by
  have h1 := abs_nonneg C
  have h2 := abs_nonneg (ld.labelData 0).frameWidth
  have h3 := abs_nonneg (ld.labelData 1).frameWidth
  have h4 := dimWTBound_nonneg ld
  unfold boundM
  omega

lemma getD_mem_of_lt {α} (l : List α) (i : ℕ) (d : α) (h : i < l.length) :
    l.getD i d ∈ l := by
  induction l generalizing i with
  | nil => simp at h
  | cons a t ih =>
    cases i with
    | zero => simp
    | succ j =>
      simp only [List.getD_cons_succ]
      exact List.mem_cons_of_mem a (ih j (by simpa using h))

lemma getD_of_len_le {α} (l : List α) (i : ℕ) (d : α) (h : l.length ≤ i) :
    l.getD i d = d := by
  induction l generalizing i with
  | nil => simp [List.getD]
  | cons a t ih =>
    cases i with
    | zero => simp at h
    | succ j => simpa using ih j (by simpa using h)

/-- Every value the solver can store is bounded by boundM. -/
def BoundedDims (d : Dimensions) (M : ℤ) : Prop :=
  d.dimTitle ≤ M ∧ d.dimFooter ≤ M ∧
    ∀ p : Fin 4, ∀ x ∈ d.dimAxisVector p, x ≤ M

lemma fin2_eq_zero_or_one (t : Fin 2) : t = 0 ∨ t = 1 := by
  fin_cases t
  · exact Or.inl rfl
  · exact Or.inr rfl

lemma fin4_eq_cases (p : Fin 4) : p = 0 ∨ p = 1 ∨ p = 2 ∨ p = 3 := by
  fin_cases p
  · exact Or.inl rfl
  · exact Or.inr (Or.inl rfl)
  · exact Or.inr (Or.inr (Or.inl rfl))
  · exact Or.inr (Or.inr (Or.inr rfl))

lemma frame_le_pair (ld : LayoutData) (t : Fin 2) :
    (ld.labelData t).frameWidth ≤
      |(ld.labelData 0).frameWidth| + |(ld.labelData 1).frameWidth| := by
  have h0 := abs_nonneg (ld.labelData 0).frameWidth
  have h1 := abs_nonneg (ld.labelData 1).frameWidth
  rcases fin2_eq_zero_or_one t with rfl | rfl
  · have := le_abs_self (ld.labelData 0).frameWidth
    omega
  · have := le_abs_self (ld.labelData 1).frameWidth
    omega

lemma hfwE_le_boundM {ld : LayoutData} {C : ℤ} (h : BoundedCallbacks ld C)
    (t : Fin 2) (opts : Options) (width : ℚ) (aw : ℤ) :
    heightForWidthE t ld opts width aw ≤ boundM ld C := by
  have hceil : ∀ w : ℚ, ⌈(ld.labelData t).textHeightForWidth w⌉ ≤ C :=
    fun w => Int.ceil_le.mpr (by exact_mod_cast h.1 t w)
  have hCn := abs_nonneg C
  have hC := le_abs_self C
  have hfr := frame_le_pair ld t
  have hwt := dimWTBound_nonneg ld
  have hfr0 := abs_nonneg (ld.labelData 0).frameWidth
  have hfr1 := abs_nonneg (ld.labelData 1).frameWidth
  by_cases hempty : (ld.labelData t).textIsEmpty = true
  · simp only [heightForWidthE, hempty, if_true]
    exact boundM_nonneg ld C
  · by_cases hsym : ld.hasSymmetricYAxes = true <;>
      by_cases hfrm : opts.ignoreFrames = true <;>
      simp only [heightForWidthE, hempty, hsym, hfrm, if_true, if_false,
        Bool.not_eq_true, not_false_eq_true, not_true_eq_false, boundM] <;>
      [have := hceil width; have := hceil width;
        have := hceil (width - (aw : ℚ)); have := hceil (width - (aw : ℚ))] <;>
      omega

lemma axisCandidate_le_boundM {ld : LayoutData} {C : ℤ}
    (h : BoundedCallbacks ld C) (p : Fin 4) (i : ℕ)
    (hvis : (ld.axisData p i).isVisible = true) (len : ℚ) :
    (ld.axisData p i).dimWithoutTitle +
      (if ¬(ld.axisData p i).titleIsEmpty then
        (ld.axisData p i).titleHeightForWidth ⌊len⌋ else 0) ≤ boundM ld C := by
  have hi : i < (ld.scaleData p).length := by
    by_contra hge
    push_neg at hge
    have : ld.axisData p i = ScaleData.initNone :=
      getD_of_len_le (ld.scaleData p) i ScaleData.initNone hge
    rw [this] at hvis
    simp [ScaleData.initNone] at hvis
  have hmem : ld.axisData p i ∈ ld.scaleData p :=
    getD_mem_of_lt (ld.scaleData p) i ScaleData.initNone hi
  have habs : |(ld.axisData p i).dimWithoutTitle| ≤ dimWTBound ld := by
    have hone : |(ld.axisData p i).dimWithoutTitle| ≤
        ((ld.scaleData p).map (fun sd => |sd.dimWithoutTitle|)).sum := by
      apply List.single_le_sum
      · intro x hx
        rcases List.mem_map.mp hx with ⟨sd, _, rfl⟩
        exact abs_nonneg _
      · exact List.mem_map_of_mem _ hmem
    have h0 := absMapSum_nonneg (ld.scaleData 0)
    have h1 := absMapSum_nonneg (ld.scaleData 1)
    have h2 := absMapSum_nonneg (ld.scaleData 2)
    have h3 := absMapSum_nonneg (ld.scaleData 3)
    unfold dimWTBound
    rcases fin4_eq_cases p with rfl | rfl | rfl | rfl <;> omega
  have hd := le_abs_self (ld.axisData p i).dimWithoutTitle
  have hCn := abs_nonneg C
  have hC := le_abs_self C
  have hfr0 := abs_nonneg (ld.labelData 0).frameWidth
  have hfr1 := abs_nonneg (ld.labelData 1).frameWidth
  unfold boundM
  by_cases htitle : (ld.axisData p i).titleIsEmpty = true
  · simp only [htitle, not_true_eq_false, if_false]
    omega
  · simp only [htitle, not_false_eq_true, if_true]
    have := h.2 p _ hmem ⌊len⌋
    omega

lemma boundedDims_titleUpd {M : ℤ} (x : Dimensions) (c : Prop) [Decidable c]
    (v : ℤ) (hv : v ≤ M) (hx : BoundedDims x M) :
    BoundedDims (if c then (if v > x.dimTitle then { x with dimTitle := v }
      else x) else x) M := by
  split
  · split
    · exact ⟨hv, hx.2.1, hx.2.2⟩
    · exact hx
  · exact hx

lemma boundedDims_footerUpd {M : ℤ} (x : Dimensions) (c : Prop) [Decidable c]
    (v : ℤ) (hv : v ≤ M) (hx : BoundedDims x M) :
    BoundedDims (if c then (if v > x.dimFooter then { x with dimFooter := v }
      else x) else x) M := by
  split
  · split
    · exact ⟨hx.1, hv, hx.2.2⟩
    · exact hx
  · exact hx

lemma boundedDims_setDimAxis {M : ℤ} (x : Dimensions) (p : Fin 4) (i : ℕ)
    (v : ℤ) (hv : v ≤ M) (hx : BoundedDims x M) :
    BoundedDims (x.setDimAxis p i v) M := by
  refine ⟨hx.1, hx.2.1, fun q z hz => ?_⟩
  by_cases hq : q = p
  · subst hq
    simp only [Dimensions.setDimAxis, Function.update_same] at hz
    rcases List.mem_or_eq_of_mem_set hz with hmem | rfl
    · exact hx.2.2 q z hmem
    · exact hv
  · simp only [Dimensions.setDimAxis, Function.update_apply, hq, if_false] at hz
    exact hx.2.2 q z hz

/-- Conditional one-slot update preserves boundedness; the value bound may
use the guard. -/
lemma boundedDims_condSet {M : ℤ} (x : Dimensions) (p : Fin 4) (i : ℕ)
    (c : Prop) [Decidable c] (v : ℤ) (hv : c → v ≤ M) (hx : BoundedDims x M) :
    BoundedDims (if c then (if v > x.dimAxis p i then x.setDimAxis p i v else x)
      else x) M := by
  split
  · next hc =>
    split
    · exact boundedDims_setDimAxis x p i v (hv hc) hx
    · exact hx
  · exact hx

lemma boundedDims_axisStep {ld : LayoutData} {C : ℤ}
    (h : BoundedCallbacks ld C) (cfg : EngineConfig) (opts : Options)
    (rect : RectF) (x : Dimensions) (p : Fin 4) (i : ℕ)
    (hx : BoundedDims x (boundM ld C)) :
    BoundedDims (axisStep cfg ld opts rect x p i) (boundM ld C) := by
  unfold axisStep
  exact boundedDims_condSet x p i _ _
    (fun hvis => axisCandidate_le_boundM h p i hvis _) hx

lemma boundedDims_layoutStep {ld : LayoutData} {C : ℤ}
    (h : BoundedCallbacks ld C) (cfg : EngineConfig) (opts : Options)
    (rect : RectF) (x : Dimensions) (hx : BoundedDims x (boundM ld C)) :
    BoundedDims (layoutStep cfg ld opts rect x) (boundM ld C) := by
  unfold layoutStep
  apply foldl_preserve (fun d => BoundedDims d (boundM ld C))
  · intro acc pi hacc
    exact boundedDims_axisStep h cfg opts rect acc pi.1 pi.2 hacc
  · apply boundedDims_footerUpd _ _ _ (hfwE_le_boundM h 1 opts rect.width _)
    apply boundedDims_titleUpd _ _ _ (hfwE_le_boundM h 0 opts rect.width _)
    exact hx

lemma boundedDims_initial (ld : LayoutData) (C : ℤ) :
    BoundedDims (Dimensions.initial ld) (boundM ld C) := by
  refine ⟨boundM_nonneg ld C, boundM_nonneg ld C, fun p z hz => ?_⟩
  simp only [Dimensions.initial] at hz
  rw [List.eq_of_mem_replicate hz]
  exact boundM_nonneg ld C

lemma sumDims_initial (ld : LayoutData) : sumDims (Dimensions.initial ld) = 0 := by
  simp [sumDims, Dimensions.initial]

lemma sumDims_le_of_bounded {d : Dimensions} {M : ℤ} (h : BoundedDims d M)
    (_hM : 0 ≤ M) :
    sumDims d ≤ (2 + ((d.dimAxisVector 0).length + (d.dimAxisVector 1).length +
      (d.dimAxisVector 2).length + (d.dimAxisVector 3).length : ℕ)) * M := by
  have hs : ∀ p : Fin 4, (d.dimAxisVector p).sum ≤ ((d.dimAxisVector p).length : ℤ) * M := by
    intro p
    have := List.sum_le_card_nsmul (d.dimAxisVector p) M (h.2.2 p)
    simpa [nsmul_eq_mul] using this
  have h0 := hs 0
  have h1 := hs 1
  have h2 := hs 2
  have h3 := hs 3
  have ht := h.1
  have hf := h.2.1
  unfold sumDims
  push_cast
  nlinarith [h0, h1, h2, h3, ht, hf, _hM]

lemma dims_lengths_eq_of_le {a b : Dimensions} (h : DimsLE a b) (p : Fin 4) :
    (a.dimAxisVector p).length = (b.dimAxisVector p).length :=
  (h.2.2 p).length_eq

/-- Under bounded callbacks the solver loop reaches a fixed point. -/
lemma exists_fixed_point (cfg : EngineConfig) (ld : LayoutData) (opts : Options)
    (rect : RectF) (C : ℤ) (h : BoundedCallbacks ld C) :
    ∃ n : ℕ, layoutStep cfg ld opts rect
        ((layoutStep cfg ld opts rect)^[n] (Dimensions.initial ld)) =
      (layoutStep cfg ld opts rect)^[n] (Dimensions.initial ld) := by
  set f := layoutStep cfg ld opts rect with hf
  set d0 := Dimensions.initial ld with hd0
  by_contra hc
  push_neg at hc
  have hmono : ∀ n : ℕ, DimsLE (f^[n] d0) (f^[n + 1] d0) := by
    intro n
    rw [Function.iterate_succ_apply']
    exact dimsLE_layoutStep cfg ld opts rect (f^[n] d0)
  have hbd : ∀ n : ℕ, BoundedDims (f^[n] d0) (boundM ld C) := by
    intro n
    induction n with
    | zero => exact boundedDims_initial ld C
    | succ m ih =>
      rw [Function.iterate_succ_apply']
      exact boundedDims_layoutStep h cfg opts rect _ ih
  have hlen : ∀ n : ℕ, ∀ p : Fin 4,
      ((f^[n] d0).dimAxisVector p).length = ((d0).dimAxisVector p).length := by
    intro n
    induction n with
    | zero => intro p; rfl
    | succ m ih =>
      intro p
      rw [← dims_lengths_eq_of_le (hmono m) p]
      exact ih p
  have hstrict : ∀ n : ℕ, sumDims (f^[n] d0) < sumDims (f^[n + 1] d0) := by
    intro n
    apply sumDims_lt_of_ne (hmono n)
    intro he
    rw [Function.iterate_succ_apply'] at he
    exact hc n he.symm
  have hgrow : ∀ n : ℕ, (n : ℤ) ≤ sumDims (f^[n] d0) := by
    intro n
    induction n with
    | zero => simp [hd0, sumDims_initial]
    | succ m ih =>
      have := hstrict m
      push_cast
      omega
  set L : ℕ := (d0.dimAxisVector 0).length + (d0.dimAxisVector 1).length +
    (d0.dimAxisVector 2).length + (d0.dimAxisVector 3).length with hL
  set S : ℤ := (2 + (L : ℤ)) * boundM ld C with hS
  have hub : ∀ n : ℕ, sumDims (f^[n] d0) ≤ S := by
    intro n
    have := sumDims_le_of_bounded (hbd n) (boundM_nonneg ld C)
    have e0 := hlen n 0
    have e1 := hlen n 1
    have e2 := hlen n 2
    have e3 := hlen n 3
    rw [e0, e1, e2, e3] at this
    calc sumDims (f^[n] d0) ≤
        (2 + ((d0.dimAxisVector 0).length + (d0.dimAxisVector 1).length +
          (d0.dimAxisVector 2).length + (d0.dimAxisVector 3).length : ℕ)) *
          boundM ld C := this
      _ = S := by rw [hS, hL]
  have hSnn : 0 ≤ S := by
    rw [hS]
    exact mul_nonneg (by positivity) (boundM_nonneg ld C)
  have h1 := hgrow (S.toNat + 1)
  have h2 := hub (S.toNat + 1)
  have h3 : ((S.toNat + 1 : ℕ) : ℤ) = S + 1 := by
    push_cast
    omega
  omega

/-- Once an iterate of the step is a fixed point, the fuelled loop has
stabilised: extra fuel does not change the result. -/
lemma layoutLoop_stab (cfg : EngineConfig) (ld : LayoutData) (opts : Options)
    (rect : RectF) :
    ∀ (n : ℕ) (d : Dimensions),
      layoutStep cfg ld opts rect ((layoutStep cfg ld opts rect)^[n] d) =
        (layoutStep cfg ld opts rect)^[n] d →
      ∀ m : ℕ, layoutLoop cfg ld opts rect (n + m) d =
        layoutLoop cfg ld opts rect n d := by
  intro n
  induction n with
  | zero =>
    intro d hfix m
    simp only [Function.iterate_zero, id_eq] at hfix
    cases m with
    | zero => rfl
    | succ k => simp [layoutLoop, hfix]
  | succ k ih =>
    intro d hfix m
    by_cases hd : layoutStep cfg ld opts rect d = d
    · have hall : ∀ fuel : ℕ, layoutLoop cfg ld opts rect (fuel + 1) d = d :=
        fun fuel => by simp [layoutLoop, hd]
      have e1 : k + 1 + m = k + m + 1 := by omega
      rw [e1, hall (k + m), hall k]
    · have hrw : (layoutStep cfg ld opts rect)^[k + 1] d =
          (layoutStep cfg ld opts rect)^[k] (layoutStep cfg ld opts rect d) :=
        Function.iterate_succ_apply _ _ _
      rw [hrw] at hfix
      have e1 : k + 1 + m = (k + m) + 1 := by omega
      have lhs1 : layoutLoop cfg ld opts rect ((k + m) + 1) d =
          layoutLoop cfg ld opts rect (k + m) (layoutStep cfg ld opts rect d) := by
        simp [layoutLoop, hd]
      have rhs1 : layoutLoop cfg ld opts rect (k + 1) d =
          layoutLoop cfg ld opts rect k (layoutStep cfg ld opts rect d) := by
        simp [layoutLoop, hd]
      rw [e1, lhs1, rhs1]
      exact ih (layoutStep cfg ld opts rect d) hfix m

/-! Concrete probe inputs used by witnesses and counterexamples. -/

namespace Probe

def optsAll0 : Options := ⟨false, false, false, false, false⟩

def cfgPlain : EngineConfig :=
  { legendPos := .BottomLegend, legendRatioQ := 33 / 100,
    canvasMargin := fun _ => 0, alignCanvas := fun _ => false, spacing := 5 }

def axRight : AxisInput := ⟨true, 0, false, 0, 0, 0, 10, true, 0, fun _ => 0⟩

def axBottom : AxisInput := ⟨true, 0, false, 0, 2, 3, 1, true, 0, fun _ => 0⟩

def plotTwoAxes : PlotInput :=
  { legendW := none, titleLabel := none, footerLabel := none,
    axes := fun p => if p = yRight then [axRight]
      else if p = xBottom then [axBottom] else [],
    canvasContentsMargins := fun _ => 0 }

def rectA : RectF := ⟨0, 0, 100, 50⟩

def ldTwoAxes : LayoutData := LayoutData.init plotTwoAxes rectA

def dimsIter1 : Dimensions :=
  layoutStep cfgPlain ldTwoAxes optsAll0 rectA (Dimensions.initial ldTwoAxes)

def sdBottom : ScaleData := LayoutData.axisData ldTwoAxes xBottom 0

def cfgRightHalf : EngineConfig :=
  { legendPos := .RightLegend, legendRatioQ := 1 / 2,
    canvasMargin := fun _ => 4, alignCanvas := fun _ => false, spacing := 5 }

def legendDataA : LegendData := ⟨0, 7, 9, 150, 100⟩

def rect400x300 : RectF := ⟨0, 0, 400, 300⟩

def cfgTopThird : EngineConfig :=
  { legendPos := .TopLegend, legendRatioQ := 33 / 100,
    canvasMargin := fun _ => 4, alignCanvas := fun _ => false, spacing := 5 }

def legendDataTop : LegendData := ⟨0, 7, 50, 20, 10⟩

def rect400sq : RectF := ⟨0, 0, 400, 400⟩

def plotInvisible : PlotInput :=
  { legendW := none, titleLabel := none, footerLabel := none,
    axes := fun _ => [defaultAxisInput],
    canvasContentsMargins := fun _ => 3 }

def rect100sq : RectF := ⟨0, 0, 100, 100⟩

def stateEmpty : LayoutState := ⟨nullRectF, nullRectF, nullRectF, nullRectF, fun _ => []⟩

def plotLabeled : PlotInput :=
  { legendW := none,
    titleLabel := some ⟨false, fun w => w / 10, 2⟩,
    footerLabel := none,
    axes := fun _ => [],
    canvasContentsMargins := fun _ => 0 }

def ldLabeled : LayoutData := LayoutData.init plotLabeled rect100sq

end Probe

/-! Claim theorems. -/

/-- C1: the dimension solver layoutDimensions is monotone and terminating:
one loop iteration only ever grows dimTitle, dimFooter and every per-axis
dimension (pointwise non-decreasing), and for every snapshot whose
measurement callbacks (heightForWidth, titleHeightForWidth and the captured
dimWithoutTitle values) are bounded, the iteration reaches a step with no
increase, after which the loop returns (extra fuel changes nothing). -/
theorem c1_solver_monotone_terminating (cfg : EngineConfig) (ld : LayoutData)
    (opts : Options) (rect : RectF) :
    (∀ d : Dimensions, DimsLE d (layoutStep cfg ld opts rect d)) ∧
    (∀ C : ℤ, BoundedCallbacks ld C →
      ∃ n : ℕ,
        layoutStep cfg ld opts rect
            ((layoutStep cfg ld opts rect)^[n] (Dimensions.initial ld)) =
          (layoutStep cfg ld opts rect)^[n] (Dimensions.initial ld) ∧
        ∀ m : ℕ, layoutLoop cfg ld opts rect (n + m) (Dimensions.initial ld) =
          layoutLoop cfg ld opts rect n (Dimensions.initial ld)) := by
  constructor
  · exact dimsLE_layoutStep cfg ld opts rect
  · intro C hC
    obtain ⟨n, hn⟩ := exists_fixed_point cfg ld opts rect C hC
    exact ⟨n, hn, layoutLoop_stab cfg ld opts rect n _ hn⟩

/-- Witness for C1 at a concrete two-axis snapshot with constant callbacks
bounded by 10. -/
theorem c1_witness :
    DimsLE Probe.dimsIter1
      (layoutStep Probe.cfgPlain Probe.ldTwoAxes Probe.optsAll0 Probe.rectA
        Probe.dimsIter1) ∧
    (∃ n : ℕ,
      layoutStep Probe.cfgPlain Probe.ldTwoAxes Probe.optsAll0 Probe.rectA
          ((layoutStep Probe.cfgPlain Probe.ldTwoAxes Probe.optsAll0
            Probe.rectA)^[n] (Dimensions.initial Probe.ldTwoAxes)) =
        (layoutStep Probe.cfgPlain Probe.ldTwoAxes Probe.optsAll0
          Probe.rectA)^[n] (Dimensions.initial Probe.ldTwoAxes) ∧
      ∀ m : ℕ, layoutLoop Probe.cfgPlain Probe.ldTwoAxes Probe.optsAll0
          Probe.rectA (n + m) (Dimensions.initial Probe.ldTwoAxes) =
        layoutLoop Probe.cfgPlain Probe.ldTwoAxes Probe.optsAll0 Probe.rectA n
          (Dimensions.initial Probe.ldTwoAxes)) := by
  have h := c1_solver_monotone_terminating Probe.cfgPlain Probe.ldTwoAxes
    Probe.optsAll0 Probe.rectA
  refine ⟨h.1 Probe.dimsIter1, h.2 10 ?_⟩
  constructor
  · intro t w
    rcases fin2_eq_zero_or_one t with rfl | rfl <;>
      norm_num [Probe.ldTwoAxes, Probe.plotTwoAxes, LayoutData.init, LabelData.init]
  · intro p sd hmem n
    rcases fin4_eq_cases p with rfl | rfl | rfl | rfl <;>
      simp [Probe.ldTwoAxes, Probe.plotTwoAxes, LayoutData.init, yRight, xBottom,
        Probe.axRight, Probe.axBottom, ScaleData.initSome] at hmem <;>
      subst hmem <;> norm_num

/-- C2 counterexample: in the second solver iteration of a concrete snapshot
(one visible right axis of thickness 10, one visible bottom axis with border
hints (2, 3)), the code computes available length 87 for the bottom axis while
the claimed formula (which omits the 1-pixel reduction applied when the
right-axis total is positive) gives 88. -/
theorem c2_counterexample :
    Dimensions.dimAxes Probe.dimsIter1 yRight = 10 ∧
    lengthXAxis Probe.cfgPlain Probe.ldTwoAxes Probe.optsAll0 Probe.rectA
      Probe.dimsIter1 Probe.sdBottom = 87 ∧
    claimLengthX Probe.cfgPlain Probe.ldTwoAxes Probe.optsAll0 Probe.rectA
      Probe.dimsIter1 Probe.sdBottom = 88 ∧
    (87 : ℚ) ≠ (88 : ℚ) := by
  have hyL : Dimensions.dimAxes Probe.dimsIter1 yLeft = 0 := by decide
  have hyR : Dimensions.dimAxes Probe.dimsIter1 yRight = 10 := by decide
  have hyY : Dimensions.dimYAxes Probe.dimsIter1 = 10 := by decide
  have hs : Probe.sdBottom.start = 2 := by decide
  have he : Probe.sdBottom.«end» = 3 := by decide
  have hbL : backboneOffsetE Probe.cfgPlain Probe.ldTwoAxes Probe.optsAll0
      yLeft = 0 := by decide
  have hbR : backboneOffsetE Probe.cfgPlain Probe.ldTwoAxes Probe.optsAll0
      yRight = 0 := by decide
  have hw : Probe.rectA.width = 100 := rfl
  refine ⟨hyR, ?_, ?_, by norm_num⟩
  · unfold lengthXAxis
    rw [hyY, hs, he, hyR, hyL, hbL, hbR, hw]
    norm_num
  · unfold claimLengthX
    rw [hyY, hs, he, hyR, hyL, hbL, hbR, hw]
    norm_num

/-- C2 (amended): the available length for a horizontal axis equals the
claimed formula minus 1 pixel exactly when the right-axis total is positive;
the vertical available length equals the claimed formula minus a further
unconditional 1 pixel (the code subtracts a base pixel even when both
horizontal axes are present). -/
theorem c2_axis_length_amended (cfg : EngineConfig) (ld : LayoutData)
    (opts : Options) (rect : RectF) (dims : Dimensions) (sd : ScaleData) :
    lengthXAxis cfg ld opts rect dims sd =
      claimLengthX cfg ld opts rect dims sd -
        (if dims.dimAxes yRight > 0 then 1 else 0) ∧
    lengthYAxis cfg ld opts rect dims sd =
      claimLengthY cfg ld opts rect dims sd - 1 := by
  constructor
  · unfold lengthXAxis claimLengthX
    by_cases hr : dims.dimAxes yRight > 0 <;> (simp [hr]; try ring)
  · unfold lengthYAxis claimLengthY
    by_cases h1 : dims.dimAxes xBottom ≤ 0 <;>
      by_cases h2 : dims.dimAxes xTop ≤ 0 <;>
      by_cases h3 : dims.dimAxes xBottom > 0 <;>
      by_cases h4 : dims.dimAxes xTop > 0 <;>
      by_cases h5 : dims.dimTitle > 0 <;>
      simp [h1, h2, h3, h4, h5] <;> ring

/-- C3: for a non-empty title or footer text, heightForWidth measures the
text at the full rect width when the visible left/right axis counts are
equal, and at the width minus the current left+right axis thickness when
they differ; when frames are not ignored, twice the label frame width is
added to the measured (ceiled) height. -/
theorem c3_heightForWidth_symmetric (ld : LayoutData) (opts : Options)
    (width : ℚ) (axesWidth : ℤ) (t : Fin 2)
    (h : (ld.labelData t).textIsEmpty = false) :
    heightForWidthE t ld opts width axesWidth =
      ⌈(ld.labelData t).textHeightForWidth
        (if ld.numVisibleScales yLeft = ld.numVisibleScales yRight then width
          else width - (axesWidth : ℚ))⌉ +
      (if opts.ignoreFrames then 0 else 2 * (ld.labelData t).frameWidth) := by
  by_cases hsym : ld.numVisibleScales yLeft = ld.numVisibleScales yRight <;>
    by_cases hfrm : opts.ignoreFrames = true <;>
    simp [heightForWidthE, h, LayoutData.hasSymmetricYAxes, beq_iff_eq,
      hsym, hfrm]

/-- Witness for C3: a concrete snapshot with a non-empty title whose
height-for-width callback is w/10, frame width 2, no visible axes. -/
theorem c3_witness :
    heightForWidthE 0 Probe.ldLabeled Probe.optsAll0 100 30 =
      ⌈(Probe.ldLabeled.labelData 0).textHeightForWidth
        (if Probe.ldLabeled.numVisibleScales yLeft =
            Probe.ldLabeled.numVisibleScales yRight then (100 : ℚ)
          else 100 - ((30 : ℤ) : ℚ))⌉ +
      (if Probe.optsAll0.ignoreFrames then 0
        else 2 * (Probe.ldLabeled.labelData 0).frameWidth) :=
  c3_heightForWidth_symmetric Probe.ldLabeled Probe.optsAll0 100 30 0 (by decide)

/-- Modelled from the amended claim C4: legend thickness as the code computes
it: for Left/Right, min of hint width and truncated rect-width times ratio,
plus the horizontal scroll extent when the hinted height overflows and
scrollbars are not ignored; for Top/Bottom, the max of the min-thickness and
the vertical scroll extent, unconditionally. -/
def amendedLegendThickness (cfg : EngineConfig) (opts : Options)
    (legendData : LegendData) (rect : RectF) : ℤ :=
  if cfg.legendPos = .LeftLegend ∨ cfg.legendPos = .RightLegend then
    min legendData.hintW (cppToInt (rect.width * cfg.legendRatioQ)) +
      (if ¬opts.ignoreScrollbars ∧ (legendData.hintH : ℚ) > rect.height then
        legendData.hScrollExtent else 0)
  else
    max (min legendData.hintH (cppToInt (rect.height * cfg.legendRatioQ)))
      legendData.vScrollExtent

/-- C4 counterexample: for a Top legend with hint (20, 10), vertical scroll
extent 50, ratio 0.33 and rect 400 by 400 (no overflow in either direction),
the code computes thickness max(min(10, 132), 50) = 50, while the claimed
rule (min of hint and span times ratio, scroll extent added only on
overflow) gives 10. -/
theorem c4_counterexample :
    (layoutLegend Probe.cfgTopThird Probe.optsAll0 Probe.legendDataTop
      Probe.rect400sq).h = 50 ∧
    claimLegendThickness Probe.cfgTopThird Probe.optsAll0 Probe.legendDataTop
      Probe.rect400sq = 10 ∧
    (50 : ℚ) ≠ (10 : ℚ) := by
  refine ⟨?_, ?_, by norm_num⟩
  · norm_num [layoutLegend, Probe.cfgTopThird, Probe.legendDataTop,
      Probe.rect400sq, Probe.optsAll0, cppToInt, RectF.height, RectF.width,
      RectF.setHeight, min_def, max_def]
    decide
  · norm_num [claimLegendThickness, Probe.cfgTopThird, Probe.legendDataTop,
      Probe.rect400sq, Probe.optsAll0, cppToInt, RectF.height, RectF.width,
      min_def, max_def]
    decide

/-- C4 (amended): layoutLegend places a rectangle of thickness
amendedLegendThickness flush against the configured side: the claimed
min-and-conditional-scroll rule holds for Left/Right legends, but for
Top/Bottom legends the thickness is max-ed with the vertical scroll extent
unconditionally; the claimed Right-legend scenario (hint width 150, ratio
0.5, rect width 400, legend width min(150, 200) = 150) does hold. -/
theorem c4_layoutLegend_amended (cfg : EngineConfig) (opts : Options)
    (legendData : LegendData) (rect : RectF) :
    (layoutLegend cfg opts legendData rect =
      match cfg.legendPos with
      | .LeftLegend =>
          ⟨rect.x, rect.y,
            (amendedLegendThickness cfg opts legendData rect : ℚ), rect.h⟩
      | .RightLegend =>
          ⟨rect.x + rect.w - (amendedLegendThickness cfg opts legendData rect : ℚ),
            rect.y, (amendedLegendThickness cfg opts legendData rect : ℚ), rect.h⟩
      | .TopLegend =>
          ⟨rect.x, rect.y, rect.w,
            (amendedLegendThickness cfg opts legendData rect : ℚ)⟩
      | .BottomLegend =>
          ⟨rect.x, rect.y + rect.h - (amendedLegendThickness cfg opts legendData rect : ℚ),
            rect.w, (amendedLegendThickness cfg opts legendData rect : ℚ)⟩) ∧
    (layoutLegend Probe.cfgRightHalf Probe.optsAll0 Probe.legendDataA
      Probe.rect400x300).w = 150 := by
  constructor
  · rcases cfg with ⟨pos, ratio, cm, ac, sp⟩
    cases pos <;>
      simp [layoutLegend, amendedLegendThickness, RectF.setX, RectF.setY,
        RectF.setLeft, RectF.setTop, RectF.setWidth, RectF.setHeight,
        RectF.right, RectF.bottom, RectF.width, RectF.height] <;>
      (try (split <;> simp))
  · norm_num [layoutLegend, Probe.cfgRightHalf, Probe.legendDataA,
      Probe.rect400x300, Probe.optsAll0, cppToInt, RectF.height, RectF.width,
      RectF.setX, RectF.setLeft, RectF.setWidth, RectF.right, min_def]

/-- C8: alignLegend stretches a Top/Bottom legend to the canvas horizontal
extent exactly when the hinted width is below the canvas width, stretches a
Left/Right legend to the canvas vertical extent exactly when the hinted
height is below the canvas height, and otherwise returns the legend
rectangle unchanged. -/
theorem c8_alignLegend_stretch (cfg : EngineConfig) (legendData : LegendData)
    (canvasRect legendRect : RectF) :
    alignLegend cfg legendData canvasRect legendRect =
      if cfg.legendPos = .BottomLegend ∨ cfg.legendPos = .TopLegend then
        (if (legendData.hintW : ℚ) < canvasRect.width then
          ⟨canvasRect.x, legendRect.y, canvasRect.w, legendRect.h⟩
        else legendRect)
      else
        (if (legendData.hintH : ℚ) < canvasRect.height then
          ⟨legendRect.x, canvasRect.y, legendRect.w, canvasRect.h⟩
        else legendRect) := by
  unfold alignLegend
  split <;> split <;>
    simp [RectF.setX, RectF.setY, RectF.setLeft, RectF.setTop,
      RectF.setWidth, RectF.setHeight, RectF.width, RectF.height]

/-- Invariant claimed for the configuration state: the stored legend ratio is
in (0, 1] and the stored spacing is non-negative. -/
def ConfigInvariant (cfg : EngineConfig) : Prop :=
  0 < cfg.legendRatioQ ∧ cfg.legendRatioQ ≤ 1 ∧ 0 ≤ cfg.spacing

/-- C9: the constructor state satisfies the invariant and no setter can break
it; setLegendPosition/setLegendRatio clamp a ratio above 1 to 1 and replace a
non-positive ratio by the per-position default (0.33 for Top/Bottom, 0.5 for
Left/Right), and setSpacing stores max(0, spacing). -/
theorem c9_config_invariant :
    ConfigInvariant defaultEngineConfig ∧
    (∀ (cfg : EngineConfig) (pos : LegendPosition) (ratio : ℚ),
      ConfigInvariant cfg → ConfigInvariant (setLegendPositionRatio cfg pos ratio)) ∧
    (∀ (cfg : EngineConfig) (pos : LegendPosition),
      ConfigInvariant cfg → ConfigInvariant (setLegendPositionOnly cfg pos)) ∧
    (∀ (cfg : EngineConfig) (ratio : ℚ),
      ConfigInvariant cfg → ConfigInvariant (setLegendRatioE cfg ratio)) ∧
    (∀ (cfg : EngineConfig) (sp : ℤ),
      ConfigInvariant cfg → ConfigInvariant (setSpacingE cfg sp)) ∧
    (∀ (cfg : EngineConfig) (margin axisPos : ℤ),
      ConfigInvariant cfg → ConfigInvariant (setCanvasMarginE cfg margin axisPos)) ∧
    (∀ (cfg : EngineConfig) (axisPos : ℤ) (flag : Bool),
      ConfigInvariant cfg → ConfigInvariant (setAlignCanvasToScaleE cfg axisPos flag)) ∧
    (∀ (cfg : EngineConfig) (flag : Bool),
      ConfigInvariant cfg → ConfigInvariant (setAlignCanvasToScalesE cfg flag)) ∧
    (∀ (cfg : EngineConfig) (pos : LegendPosition) (ratio : ℚ), ratio > 1 →
      (setLegendPositionRatio cfg pos ratio).legendRatioQ = 1) ∧
    (∀ (cfg : EngineConfig) (pos : LegendPosition) (ratio : ℚ), ratio ≤ 0 →
      (setLegendPositionRatio cfg pos ratio).legendRatioQ =
        (if pos = .TopLegend ∨ pos = .BottomLegend then 33 / 100 else 1 / 2)) ∧
    (∀ (cfg : EngineConfig) (sp : ℤ), (setSpacingE cfg sp).spacing = max 0 sp) := by
  have hset : ∀ (cfg : EngineConfig) (pos : LegendPosition) (ratio : ℚ),
      ConfigInvariant cfg → ConfigInvariant (setLegendPositionRatio cfg pos ratio) := by
    intro cfg pos ratio hinv
    obtain ⟨_, _, hsp⟩ := hinv
    cases pos <;>
      · refine ⟨?_, ?_, hsp⟩ <;>
        · simp only [setLegendPositionRatio]
          split_ifs <;> (norm_num; try linarith)
  refine ⟨?_, hset, ?_, ?_, ?_, ?_, ?_, ?_, ?_, ?_, ?_⟩
  · refine ⟨by norm_num [defaultEngineConfig], by norm_num [defaultEngineConfig],
      by norm_num [defaultEngineConfig]⟩
  · intro cfg pos hinv
    exact hset cfg pos 0 hinv
  · intro cfg ratio hinv
    exact hset cfg cfg.legendPos ratio hinv
  · intro cfg sp hinv
    exact ⟨hinv.1, hinv.2.1, le_max_left 0 sp⟩
  · intro cfg margin axisPos hinv
    unfold setCanvasMarginE
    split_ifs <;> exact hinv
  · intro cfg axisPos flag hinv
    unfold setAlignCanvasToScaleE
    split_ifs <;> exact hinv
  · intro cfg flag hinv
    exact hinv
  · intro cfg pos ratio hgt
    have h2 : ¬(1 : ℚ) ≤ 0 := by norm_num
    cases pos <;> simp [setLegendPositionRatio, hgt, h2]
  · intro cfg pos ratio hle
    have h1 : ¬ratio > 1 := by linarith
    cases pos <;> simp [setLegendPositionRatio, h1, hle]
  · intro cfg sp
    rfl

/-- Witness for C9: the invariant holds after setting a Left legend with an
over-large ratio 2 starting from the default configuration. -/
theorem c9_witness :
    ConfigInvariant (setLegendPositionRatio defaultEngineConfig .LeftLegend 2) :=
  c9_config_invariant.2.1 defaultEngineConfig .LeftLegend 2
    (by norm_num [ConfigInvariant, defaultEngineConfig])

/-- C10: the public per-axis accessors are total over arbitrary integer axis
identifiers: outside the valid range, scaleRect returns the null rectangle,
setScaleRect leaves the state unchanged, canvasMargin returns 0, and
alignCanvasToScale returns false. -/
theorem c10_accessors_total (s : LayoutState) (cfg : EngineConfig)
    (rect : RectF) :
    (∀ pos id : ℤ,
      (¬∃ p : Fin 4, ((p.val : ℤ) = pos ∧ 0 ≤ id ∧
        id < ((s.scaleRects p).length : ℤ))) →
      scaleRectAt s pos id = nullRectF ∧ setScaleRectAt s pos id rect = s) ∧
    (∀ a : ℤ, ¬(0 ≤ a ∧ a < 4) →
      canvasMarginAt cfg a = 0 ∧ alignCanvasToScaleAt cfg a = false) := by
  constructor
  · intro pos id hinv
    constructor
    · unfold scaleRectAt
      split
      · next hrange =>
        have hfin : ((⟨pos.toNat, by omega⟩ : Fin 4).val : ℤ) = pos := by
          simp only [Fin.val]
          omega
        rw [if_neg]
        intro hid
        exact hinv ⟨⟨pos.toNat, by omega⟩, hfin, hid.1, hid.2⟩
      · rfl
    · unfold setScaleRectAt
      split
      · next hrange =>
        have hfin : ((⟨pos.toNat, by omega⟩ : Fin 4).val : ℤ) = pos := by
          simp only [Fin.val]
          omega
        rw [if_neg]
        intro hid
        exact hinv ⟨⟨pos.toNat, by omega⟩, hfin, hid.1, hid.2⟩
      · rfl
  · intro a ha
    have ha' : a < 0 ∨ 4 ≤ a := by omega
    constructor
    · unfold canvasMarginAt
      rw [dif_pos ha']
    · unfold alignCanvasToScaleAt
      rw [dif_pos ha']

/-- Witness for C10 at position 5 (out of range) on an empty state and at
axis id -2 for the config accessors. -/
theorem c10_witness :
    (scaleRectAt Probe.stateEmpty 5 0 = nullRectF ∧
      setScaleRectAt Probe.stateEmpty 5 0 Probe.rectA = Probe.stateEmpty) ∧
    (canvasMarginAt Probe.cfgPlain (-2) = 0 ∧
      alignCanvasToScaleAt Probe.cfgPlain (-2) = false) :=
  ⟨(c10_accessors_total Probe.stateEmpty Probe.cfgPlain Probe.rectA).1 5 0
      (by decide),
    (c10_accessors_total Probe.stateEmpty Probe.cfgPlain Probe.rectA).2 (-2)
      (by decide)⟩

/-! Lemmas about invisible axes and content-free passes (claims C5, C6). -/

lemma dimAxis_setDimAxis_ne (d : Dimensions) (q : Fin 4) (j : ℕ) (v : ℤ)
    (p : Fin 4) (i : ℕ) (h : ¬(q = p ∧ j = i)) :
    (d.setDimAxis q j v).dimAxis p i = d.dimAxis p i := by
  unfold Dimensions.setDimAxis Dimensions.dimAxis
  by_cases hq : q = p
  · subst hq
    simp only [Function.update_same]
    have hj : j ≠ i := fun hji => h ⟨rfl, hji⟩
    exact getD_set_ne _ i j v 0 (Ne.symm hj)
  · simp only [Function.update_apply, if_neg (fun h' : p = q => hq h'.symm)]

lemma dimAxis_condSet_zero (d : Dimensions) (q : Fin 4) (j : ℕ) (c : Prop)
    [Decidable c] (v : ℤ) (p : Fin 4) (i : ℕ) (hne : c → ¬(q = p ∧ j = i))
    (hd : d.dimAxis p i = 0) :
    (if c then (if v > d.dimAxis q j then d.setDimAxis q j v else d)
      else d).dimAxis p i = 0 := by
  split
  · next hc =>
    split
    · rw [dimAxis_setDimAxis_ne d q j v p i (hne hc)]
      exact hd
    · exact hd
  · exact hd

lemma dimAxis_titleUpd (d : Dimensions) (c : Prop) [Decidable c] (v : ℤ)
    (p : Fin 4) (i : ℕ) :
    (if c then (if v > d.dimTitle then { d with dimTitle := v } else d)
      else d).dimAxis p i = d.dimAxis p i := by
  split
  · split <;> rfl
  · rfl

lemma dimAxis_footerUpd (d : Dimensions) (c : Prop) [Decidable c] (v : ℤ)
    (p : Fin 4) (i : ℕ) :
    (if c then (if v > d.dimFooter then { d with dimFooter := v } else d)
      else d).dimAxis p i = d.dimAxis p i := by
  split
  · split <;> rfl
  · rfl

lemma dimAxis_axisStep_zero (cfg : EngineConfig) (ld : LayoutData)
    (opts : Options) (rect : RectF) (d : Dimensions) (q : Fin 4) (j : ℕ)
    (p : Fin 4) (i : ℕ) (hvis : (ld.axisData p i).isVisible = false)
    (hd : d.dimAxis p i = 0) :
    (axisStep cfg ld opts rect d q j).dimAxis p i = 0 := by
  unfold axisStep
  refine dimAxis_condSet_zero d q j _ _ p i ?_ hd
  intro hv hpair
  obtain ⟨rfl, rfl⟩ := hpair
  rw [hvis] at hv
  exact Bool.false_ne_true hv

lemma dimAxis_layoutStep_zero (cfg : EngineConfig) (ld : LayoutData)
    (opts : Options) (rect : RectF) (p : Fin 4) (i : ℕ)
    (hvis : (ld.axisData p i).isVisible = false) (d : Dimensions)
    (hd : d.dimAxis p i = 0) :
    (layoutStep cfg ld opts rect d).dimAxis p i = 0 := by
  unfold layoutStep
  apply foldl_preserve (fun x : Dimensions => x.dimAxis p i = 0)
  · intro acc pi hacc
    exact dimAxis_axisStep_zero cfg ld opts rect acc pi.1 pi.2 p i hvis hacc
  · simp only [dimAxis_footerUpd, dimAxis_titleUpd]
    exact hd

lemma layoutLoop_preserve (cfg : EngineConfig) (ld : LayoutData)
    (opts : Options) (rect : RectF) (P : Dimensions → Prop)
    (hstep : ∀ d, P d → P (layoutStep cfg ld opts rect d)) :
    ∀ (fuel : ℕ) (d : Dimensions), P d →
      P (layoutLoop cfg ld opts rect fuel d) := by
  intro fuel
  induction fuel with
  | zero => exact fun d hd => hd
  | succ k ih =>
    intro d hd
    unfold layoutLoop
    by_cases he : layoutStep cfg ld opts rect d = d
    · simp only [he, if_true]
      exact hd
    · simp only [he, if_false]
      exact ih (layoutStep cfg ld opts rect d) (hstep d hd)

lemma dimAxis_initial (ld : LayoutData) (p : Fin 4) (i : ℕ) :
    (Dimensions.initial ld).dimAxis p i = 0 := by
  unfold Dimensions.initial Dimensions.dimAxis
  exact getD_replicate_self 0 (ld.numAxes p) i

lemma placeAxesStep_zero (canvasRect : RectF) (dims : Dimensions)
    (p : Fin 4) (st : ℤ × List RectF) (i : ℕ)
    (h : dims.dimAxis p i = 0) :
    placeAxesStep canvasRect dims p st i = st := by
  unfold placeAxesStep
  rw [if_neg]
  simp [h]

/-- C6: an axis slot marked invisible contributes nothing: the snapshot init
zeroes all its captured measurements (start, end, baseline offset, intrinsic
dimension), the solver never updates its dimension (it stays 0 through every
step and any amount of loop fuel), and the region allocator assigns it no
rectangle and does not advance the stacking offset. -/
theorem c6_invisible_axis_inert (plot : PlotInput) (rect0 rect1 : RectF)
    (cfg : EngineConfig) (opts : Options) (p : Fin 4) (i : ℕ)
    (hlen : i < (plot.axes p).length)
    (hvis : ((plot.axes p).getD i defaultAxisInput).visible = false) :
    LayoutData.axisData (LayoutData.init plot rect0) p i = ScaleData.initNone ∧
    (∀ d : Dimensions, Dimensions.dimAxis d p i = 0 →
      Dimensions.dimAxis
        (layoutStep cfg (LayoutData.init plot rect0) opts rect1 d) p i = 0) ∧
    (∀ fuel : ℕ, Dimensions.dimAxis
      (layoutDimensions cfg fuel opts (LayoutData.init plot rect0) rect1) p i = 0) ∧
    (∀ (fuel : ℕ) (canvasRect : RectF) (st : ℤ × List RectF),
      placeAxesStep canvasRect
        (layoutDimensions cfg fuel opts (LayoutData.init plot rect0) rect1)
        p st i = st) := by
  have hsd : LayoutData.axisData (LayoutData.init plot rect0) p i =
      ScaleData.initNone := by
    unfold LayoutData.axisData LayoutData.init
    rw [getD_map_of_lt _ (plot.axes p) i hlen ScaleData.initNone defaultAxisInput]
    rw [hvis]
    simp
  have hvis' : (LayoutData.axisData (LayoutData.init plot rect0) p i).isVisible =
      false := by rw [hsd]; rfl
  have hstep : ∀ d : Dimensions, Dimensions.dimAxis d p i = 0 →
      Dimensions.dimAxis
        (layoutStep cfg (LayoutData.init plot rect0) opts rect1 d) p i = 0 :=
    fun d hd =>
      dimAxis_layoutStep_zero cfg (LayoutData.init plot rect0) opts rect1 p i
        hvis' d hd
  have hdims : ∀ fuel : ℕ, Dimensions.dimAxis
      (layoutDimensions cfg fuel opts (LayoutData.init plot rect0) rect1) p i = 0 := by
    intro fuel
    unfold layoutDimensions
    exact layoutLoop_preserve cfg (LayoutData.init plot rect0) opts rect1
      (fun x => x.dimAxis p i = 0) hstep fuel _
      (dimAxis_initial (LayoutData.init plot rect0) p i)
  exact ⟨hsd, hstep, hdims,
    fun fuel canvasRect st =>
      placeAxesStep_zero canvasRect _ p st i (hdims fuel)⟩

/-- Witness for C6: the invisible slot of a concrete one-axis-per-side plot
yields a zeroed snapshot entry, a zero solved dimension at fuel 3, and an
unchanged allocator state. -/
theorem c6_witness :
    LayoutData.axisData (LayoutData.init Probe.plotInvisible Probe.rect100sq)
      xBottom 0 = ScaleData.initNone ∧
    Dimensions.dimAxis
      (layoutDimensions Probe.cfgPlain 3 Probe.optsAll0
        (LayoutData.init Probe.plotInvisible Probe.rect100sq) Probe.rect100sq)
      xBottom 0 = 0 ∧
    placeAxesStep Probe.rect100sq
      (layoutDimensions Probe.cfgPlain 3 Probe.optsAll0
        (LayoutData.init Probe.plotInvisible Probe.rect100sq) Probe.rect100sq)
      xBottom (0, [nullRectF]) 0 = (0, [nullRectF]) := by
  have h := c6_invisible_axis_inert Probe.plotInvisible Probe.rect100sq
    Probe.rect100sq Probe.cfgPlain Probe.optsAll0 xBottom 0 (by decide) (by decide)
  exact ⟨h.1, h.2.2.1 3, h.2.2.2 3 Probe.rect100sq (0, [nullRectF])⟩

/-- QwtPlotLayout::update invalidates and rebuilds every output rect from the
snapshot, so its result does not depend on the incoming state. -/
lemma updateLayout_state_independent (cfg : EngineConfig) (fuel : ℕ)
    (plot : PlotInput) (plotRect : RectF) (opts : Options)
    (s1 s2 : LayoutState) :
    updateLayout cfg fuel plot plotRect opts s1 =
      updateLayout cfg fuel plot plotRect opts s2 := rfl

/-- C7: the full layout pass (update: invalidate, resize to the axis counts,
activate) is idempotent: for a fixed measurement snapshot, plot rectangle and
options mask, running the pass twice produces the same title, footer, legend,
canvas and axis rectangles as running it once. -/
theorem c7_update_idempotent (cfg : EngineConfig) (fuel : ℕ)
    (plot : PlotInput) (plotRect : RectF) (opts : Options) (s : LayoutState) :
    updateLayout cfg fuel plot plotRect opts
        (updateLayout cfg fuel plot plotRect opts s) =
      updateLayout cfg fuel plot plotRect opts s :=
  updateLayout_state_independent cfg fuel plot plotRect opts _ s

/-! The content-free pass: empty labels, no legend, all axes invisible. -/

lemma axisStep_invisible (cfg : EngineConfig) (ld : LayoutData)
    (opts : Options) (rect : RectF) (acc : Dimensions) (q : Fin 4) (j : ℕ)
    (h : (ld.axisData q j).isVisible = false) :
    axisStep cfg ld opts rect acc q j = acc := by
  simp [axisStep, h]

lemma layoutStep_fixed_nocontent (cfg : EngineConfig) (ld : LayoutData)
    (opts : Options) (r : RectF)
    (hT : (ld.labelData 0).textIsEmpty = true)
    (hF : (ld.labelData 1).textIsEmpty = true)
    (hinv : ∀ (q : Fin 4) (j : ℕ), (ld.axisData q j).isVisible = false) :
    layoutStep cfg ld opts r (Dimensions.initial ld) = Dimensions.initial ld := by
  have hfw0 : ∀ aw : ℤ, heightForWidthE 0 ld opts r.width aw = 0 := by
    intro aw
    simp [heightForWidthE, hT]
  have hfw1 : ∀ aw : ℤ, heightForWidthE 1 ld opts r.width aw = 0 := by
    intro aw
    simp [heightForWidthE, hF]
  have htitle : (Dimensions.initial ld).dimTitle = 0 := rfl
  have hfooter : (Dimensions.initial ld).dimFooter = 0 := rfl
  unfold layoutStep
  simp only [hfw0, hfw1, htitle, hfooter, gt_iff_lt, lt_self_iff_false,
    if_false, ite_self]
  exact foldl_id_of_fixed _ _ _
    (fun x _ => axisStep_invisible cfg ld opts r _ x.1 x.2 (hinv x.1 x.2))

lemma layoutLoop_of_fixed (cfg : EngineConfig) (ld : LayoutData)
    (opts : Options) (r : RectF) (d : Dimensions)
    (h : layoutStep cfg ld opts r d = d) :
    ∀ fuel : ℕ, layoutLoop cfg ld opts r fuel d = d := by
  intro fuel
  cases fuel with
  | zero => rfl
  | succ k => simp [layoutLoop, h]

lemma dimAxes_initial (ld : LayoutData) (p : Fin 4) :
    (Dimensions.initial ld).dimAxes p = 0 := by
  simp [Dimensions.dimAxes, Dimensions.initial, List.sum_replicate]

lemma innerRect_initial (ld : LayoutData) (r : RectF) :
    (Dimensions.initial ld).innerRect r = r := by
  unfold Dimensions.innerRect Dimensions.dimYAxes Dimensions.dimXAxes
  rw [dimAxes_initial, dimAxes_initial, dimAxes_initial, dimAxes_initial]
  simp

lemma placeAxes_initial (ld : LayoutData) (canvasRect : RectF) (p : Fin 4)
    (rects : List RectF) :
    placeAxes canvasRect (Dimensions.initial ld) p rects = rects := by
  unfold placeAxes
  rw [foldl_id_of_fixed _ _ _
    (fun i _ => placeAxesStep_zero canvasRect _ p (0, rects) i
      (dimAxis_initial ld p i))]

lemma getD_replicate_null (n j : ℕ) :
    (List.replicate n nullRectF).getD j nullRectF = nullRectF :=
  getD_replicate_self nullRectF n j

lemma alignStep1_null (cfg : EngineConfig) (ld : LayoutData) (bb : Fin 4 → ℤ)
    (canvas : RectF) (rects : Fin 4 → List RectF)
    (hnull : ∀ (q : Fin 4) (j : ℕ), (rects q).getD j nullRectF = nullRectF)
    (x : Fin 4 × ℕ) :
    alignStep1 cfg ld bb ⟨canvas, rects⟩ x = ⟨canvas, rects⟩ := by
  simp only [alignStep1, hnull x.1 x.2]
  simp [RectF.isValid, nullRectF]

lemma alignStep2_null (cfg : EngineConfig) (ld : LayoutData) (opts : Options)
    (canvas : RectF) (rects : Fin 4 → List RectF)
    (hnull : ∀ (q : Fin 4) (j : ℕ), (rects q).getD j nullRectF = nullRectF)
    (x : Fin 4 × ℕ) :
    alignStep2 cfg ld opts ⟨canvas, rects⟩ x = ⟨canvas, rects⟩ := by
  simp only [alignStep2, hnull x.1 x.2]
  simp [RectF.isValid, nullRectF]

lemma alignScales_null (cfg : EngineConfig) (opts : Options) (ld : LayoutData)
    (canvas : RectF) (rects : Fin 4 → List RectF)
    (hnull : ∀ (q : Fin 4) (j : ℕ), (rects q).getD j nullRectF = nullRectF) :
    alignScales cfg opts ld canvas rects = ⟨canvas, rects⟩ := by
  unfold alignScales
  dsimp only
  rw [foldl_id_of_fixed _ _ _
    (fun x _ => alignStep1_null cfg ld _ canvas rects hnull x)]
  rw [foldl_id_of_fixed _ _ _
    (fun x _ => alignStep2_null cfg ld opts canvas rects hnull x)]

lemma vresize_null (n : ℕ) :
    vresize [nullRectF] n = List.replicate n nullRectF := by
  cases n with
  | zero => rfl
  | succ k =>
    simp [vresize, List.replicate_succ]

/-- A content-free pass leaves the canvas rectangle equal to the input rect:
nothing is carved away and the aligner does not move it. -/
lemma updateLayout_canvas_nocontent (cfg : EngineConfig) (fuel : ℕ)
    (plot : PlotInput) (plotRect : RectF) (opts : Options) (s : LayoutState)
    (hT : ∀ lb, plot.titleLabel = some lb → lb.textIsEmpty = true)
    (hF : ∀ lb, plot.footerLabel = some lb → lb.textIsEmpty = true)
    (hL : opts.ignoreLegend = true ∨ plot.legendW = none ∨
      ∀ lg, plot.legendW = some lg → lg.isEmptyW = true)
    (hAx : ∀ p : Fin 4, ∀ a ∈ plot.axes p, a.visible = false) :
    (updateLayout cfg fuel plot plotRect opts s).canvasRect = plotRect := by
  have hldT : ((LayoutData.init plot plotRect).labelData 0).textIsEmpty = true := by
    cases htl : plot.titleLabel with
    | none => simp [LayoutData.init, LabelData.init, htl]
    | some lb =>
      simp [LayoutData.init, LabelData.init, htl]
      exact hT lb htl
  have hldF : ((LayoutData.init plot plotRect).labelData 1).textIsEmpty = true := by
    cases hfl : plot.footerLabel with
    | none => simp [LayoutData.init, LabelData.init, hfl]
    | some lb =>
      simp [LayoutData.init, LabelData.init, hfl]
      exact hF lb hfl
  have hinvAll : ∀ (q : Fin 4) (j : ℕ),
      ((LayoutData.init plot plotRect).axisData q j).isVisible = false := by
    intro q j
    by_cases hj : j < (plot.axes q).length
    · have hmem := getD_mem_of_lt (plot.axes q) j defaultAxisInput hj
      have hv := hAx q _ hmem
      unfold LayoutData.axisData LayoutData.init
      rw [getD_map_of_lt _ (plot.axes q) j hj ScaleData.initNone defaultAxisInput]
      rw [hv]
      simp [ScaleData.initNone]
    · push_neg at hj
      have hj' : ((LayoutData.init plot plotRect).scaleData q).length ≤ j := by
        simpa [LayoutData.init] using hj
      unfold LayoutData.axisData
      rw [getD_of_len_le _ _ _ hj']
      rfl
  have hlegend : ¬(¬opts.ignoreLegend = true ∧ plot.legendW.isSome = true ∧
      ¬(plot.legendW.getD ⟨true, 0, 0, 0, 0, 0, fun _ => 0⟩).isEmptyW = true) := by
    rcases hL with h | h | h
    · rintro ⟨h1, -, -⟩
      exact h1 h
    · rintro ⟨-, h2, -⟩
      rw [h] at h2
      simp at h2
    · rintro ⟨-, h2, h3⟩
      cases hlg : plot.legendW with
      | none => rw [hlg] at h2; simp at h2
      | some lg =>
        apply h3
        rw [hlg]
        exact h lg hlg
  have hfix : ∀ r : RectF,
      layoutStep cfg (LayoutData.init plot plotRect) opts r
        (Dimensions.initial (LayoutData.init plot plotRect)) =
      Dimensions.initial (LayoutData.init plot plotRect) :=
    fun r => layoutStep_fixed_nocontent cfg _ opts r hldT hldF hinvAll
  have hdims : ∀ r : RectF,
      layoutDimensions cfg fuel opts (LayoutData.init plot plotRect) r =
        Dimensions.initial (LayoutData.init plot plotRect) :=
    fun r => layoutLoop_of_fixed cfg _ opts r _ (hfix r) fuel
  have hT0 : ¬(Dimensions.initial (LayoutData.init plot plotRect)).dimTitle > 0 := by
    norm_num [Dimensions.initial]
  have hF0 : ¬(Dimensions.initial (LayoutData.init plot plotRect)).dimFooter > 0 := by
    norm_num [Dimensions.initial]
  unfold updateLayout invalidateState
  dsimp only
  have hres : (fun axisPos : Fin 4 => vresize [nullRectF] (plot.axes axisPos).length) =
      fun axisPos : Fin 4 => List.replicate (plot.axes axisPos).length nullRectF :=
    funext fun p => vresize_null _
  rw [hres]
  unfold activate
  dsimp only
  rw [if_neg hlegend]
  dsimp only
  rw [hdims]
  rw [if_neg hT0, if_neg hF0]
  dsimp only
  rw [innerRect_initial]
  have hplaceF : (fun axisPos : Fin 4 => placeAxes plotRect
      (Dimensions.initial (LayoutData.init plot plotRect)) axisPos
      (List.replicate (plot.axes axisPos).length nullRectF)) =
      fun axisPos : Fin 4 => List.replicate (plot.axes axisPos).length nullRectF :=
    funext fun p => placeAxes_initial _ _ _ _
  rw [hplaceF]
  rw [alignScales_null cfg opts _ plotRect _
    (fun q j => getD_replicate_null (plot.axes q).length j)]

/-- C5 counterexample: a zero-content plot whose canvas widget reports
content margins of 3 on every side, on rect (0,0,100,100): the pass produces
canvasRect = (0,0,100,100) — the full input rect — while the claim predicts
the rect shrunk by the margins, (3,3,94,94). -/
theorem c5_counterexample :
    (updateLayout Probe.cfgPlain 5 Probe.plotInvisible Probe.rect100sq
      Probe.optsAll0 Probe.stateEmpty).canvasRect = Probe.rect100sq ∧
    Probe.rect100sq ≠ claimCollapsedCanvas Probe.rect100sq
      Probe.plotInvisible.canvasContentsMargins := by
  constructor
  · apply updateLayout_canvas_nocontent
    · intro lb h
      exact Option.noConfusion h
    · intro lb h
      exact Option.noConfusion h
    · exact Or.inr (Or.inl rfl)
    · intro p a ha
      have hae : a = defaultAxisInput := by
        simpa [Probe.plotInvisible] using ha
      subst hae
      rfl
  · intro h
    rw [claimCollapsedCanvas] at h
    have := congrArg RectF.x h
    norm_num [Probe.rect100sq, Probe.plotInvisible] at this

/-- C5 (amended): with empty title and footer text, no legend (or the
ignore-legend option set), and every axis invisible, the canvas rectangle
produced by the layout pass equals the input rect exactly: the canvas
frame/content margins are not subtracted from it (they only enter the axis
length computations). -/
theorem c5_zero_content_canvas (cfg : EngineConfig) (fuel : ℕ)
    (plot : PlotInput) (plotRect : RectF) (opts : Options) (s : LayoutState)
    (hT : ∀ lb, plot.titleLabel = some lb → lb.textIsEmpty = true)
    (hF : ∀ lb, plot.footerLabel = some lb → lb.textIsEmpty = true)
    (hL : opts.ignoreLegend = true ∨ plot.legendW = none ∨
      ∀ lg, plot.legendW = some lg → lg.isEmptyW = true)
    (hAx : ∀ p : Fin 4, ∀ a ∈ plot.axes p, a.visible = false) :
    (updateLayout cfg fuel plot plotRect opts s).canvasRect = plotRect :=
  updateLayout_canvas_nocontent cfg fuel plot plotRect opts s hT hF hL hAx

/-- Witness for C5 at the concrete zero-content plot with margins 3. -/
theorem c5_witness :
    (updateLayout Probe.cfgPlain 5 Probe.plotInvisible Probe.rect100sq
      Probe.optsAll0 Probe.stateEmpty).canvasRect = Probe.rect100sq := by
  apply c5_zero_content_canvas
  · intro lb h
    exact Option.noConfusion h
  · intro lb h
    exact Option.noConfusion h
  · exact Or.inr (Or.inl rfl)
  · intro p a ha
    have hae : a = defaultAxisInput := by
      simpa [Probe.plotInvisible] using ha
    subst hae
    rfl

end Qwt
